import Mathlib

/-!
Shallow embedding of `ArrayBufferStream` (src/index.js): a cursor-based binary
reader/writer over a fixed-size byte buffer, wrapping the JS `DataView` host
primitive.  Bytes are modelled as `Nat` (values kept below 256 by the encoding
functions), JS numbers as an inductive with NaN / infinities / exact rationals,
IEEE floats by their bit patterns, and thrown JS exceptions by an explicit
error type returned alongside the post-call object state (a thrown exception
propagates, but mutations to `this` that already happened remain in effect,
which the source relies on via `this.cursor++` in argument position).
-/

namespace ABStream

/-- Little-endian decomposition of a natural number into `w` bytes, keeping the
low `8 * w` bits.  Models how `DataView` lays out an unsigned integer. -/
def natToBytesLE : Nat → Nat → List Nat
  | 0, _ => []
  | w + 1, n => n % 256 :: natToBytesLE w (n / 256)

/-- Little-endian recomposition of a byte list into a natural number. -/
def natFromBytesLE : List Nat → Nat
  | [] => 0
  | b :: bs => b + 256 * natFromBytesLE bs

/-- Write a list of bytes into `data` starting at `off`, one `List.set` per
byte, mirroring consecutive single-byte stores into the underlying buffer. -/
def setBytes : List Nat → Nat → List Nat → List Nat
  | data, _, [] => data
  | data, off, b :: bs => setBytes (data.set off b) (off + 1) bs

/-- Read `w` bytes from `data` starting at `off`. -/
def getBytes (data : List Nat) (off w : Nat) : List Nat :=
  (data.drop off).take w

/-- JS numbers as the claims use them: NaN, the two infinities, and finite
values.  Finite doubles are particular rationals; every arithmetic step the
claims depend on is exact at the magnitudes involved, so `ℚ` models them. -/
inductive JsNumber where
  | nan
  | posInf
  | negInf
  | finite (q : ℚ)
deriving DecidableEq

def JsNumber.isNaN : JsNumber → Bool
  | .nan => true
  | _ => false

/-- The comparison `x > n` of a JS number against a buffer size. -/
def JsNumber.gtNat : JsNumber → Nat → Bool
  | .nan, _ => false
  | .posInf, _ => true
  | .negInf, _ => false
  | .finite q, n => decide ((n : ℚ) < q)

/-- The comparison `x < 0`. -/
def JsNumber.ltZero : JsNumber → Bool
  | .nan => false
  | .posInf => false
  | .negInf => true
  | .finite q => decide (q < 0)

/-- `Math.floor` followed by use as a `Nat` index; all call sites have already
excluded the non-finite and negative cases when this is applied. -/
def JsNumber.floorToNat : JsNumber → Nat
  | .finite q => (Int.floor q).toNat
  | _ => 0

/-- `Math.floor` on a JS number (the infinities and NaN are fixed points). -/
def jsMathFloor : JsNumber → JsNumber
  | .finite q => .finite ((Int.floor q : ℤ) : ℚ)
  | x => x

/-- The JS values relevant to the constructor and `setCursor` claims. -/
inductive JSValue where
  | num (v : JsNumber)
  | str (s : String)
  | boolean (b : Bool)
  | nullV
  | undefinedV
  | arrayBuffer (bytes : List Nat)
  | nodeBuffer (bufferBytes : List Nat) (byteOffset byteLength : JsNumber)
  | numArray (elems : List JsNumber)
deriving DecidableEq

/-- `ToNumber` on a string.  Strings of decimal digits (the shapes the claims
exercise, such as "64") parse to their value; every other string that appears
in the claims ("one") is not numeric and coerces to NaN, which is what this
model returns for all remaining strings. -/
def strToNumber (s : String) : JsNumber :=
  if !s.data.isEmpty && s.data.all Char.isDigit then
    .finite ((s.data.foldl (fun n c => n * 10 + (c.toNat - 48)) 0 : Nat) : ℚ)
  else .nan

/-- The unary `+arg` coercion (`ToNumber`).  `+true` is 1, `+null` is 0,
`+undefined` is NaN; an ArrayBuffer or Node Buffer stringifies to a
non-numeric tag, hence NaN; a JS array stringifies to its comma-joined
elements, so an empty array gives 0, a one-element array its element's value,
and a longer array NaN (the join contains a comma). -/
def toNumber : JSValue → JsNumber
  | .num v => v
  | .str s => strToNumber s
  | .boolean b => .finite (if b then 1 else 0)
  | .nullV => .finite 0
  | .undefinedV => .nan
  | .arrayBuffer _ => .nan
  | .nodeBuffer _ _ _ => .nan
  | .numArray [] => .finite 0
  | .numArray [x] => x
  | .numArray (_ :: _ :: _) => .nan

/-- `typeof arg === 'object'` (true for `null` as well). -/
def typeofIsObject : JSValue → Bool
  | .nullV | .arrayBuffer _ | .nodeBuffer _ _ _ | .numArray _ => true
  | _ => false

/-- The exceptions the code can throw: the host `RangeError` coming out of
`DataView` accesses and `new ArrayBuffer`, and the three string throws of the
source (`Unsupported ...` from the constructor, and the two `setCursor`
messages).  The spec calls these `OutOfBoundsError`, `ConstructionError` and
`RangeError` respectively. -/
inductive JSError where
  | rangeError
  | unsupportedConstruction
  | invalidCursor
  | cursorOutOfRange
deriving DecidableEq

/-- `Object.prototype.toString(x)` exactly as written in the source: the
method is invoked on the receiver `Object.prototype` rather than via
`.call(x)`, so the argument is ignored and the tag of `Object.prototype`
itself, "[object Object]", is always produced. -/
def objectPrototypeToString (_arg : Option JSValue) : String := "[object Object]"

/-- Whether the second character list is an initial segment of the first. -/
def listStartsWith : List Char → List Char → Bool
  | _, [] => true
  | [], _ :: _ => false
  | c :: s, p :: ps => c == p && listStartsWith s ps

/-- Whether the second character list occurs contiguously in the first. -/
def listContainsSeq : List Char → List Char → Bool
  | [], pat => listStartsWith [] pat
  | c :: rest, pat => listStartsWith (c :: rest) pat || listContainsSeq rest pat

/-- `s.indexOf(pat) >= 0`: whether `pat` occurs in `s`. -/
def indexOfNonNeg (s pat : String) : Bool := listContainsSeq s.data pat.data

/-- Property access `arg.data`.  None of the modelled shapes has an own
`data` property (a Node Buffer instance does not either), so this is always
`undefined`; the branch that consumes it ignores the value anyway. -/
def getDataProp (_x : JSValue) : JSValue := .undefinedV

/-- `new ArrayBuffer(len)`: `ToIndex` truncates, maps NaN to 0 and throws a
host `RangeError` on a negative or infinite length; on success the buffer is
zero-filled.  Host allocation limits are idealized away. -/
def arrayBufferNew : JsNumber → Except JSError (List Nat)
  | .finite q =>
      if q < 0 then .error .rangeError
      else .ok (List.replicate (Int.floor q).toNat 0)
  | .nan => .ok []
  | .posInf => .error .rangeError
  | .negInf => .error .rangeError

/-- The `ArrayBufferStream` object state: the wrapped buffer's bytes, the
read/write cursor and the per-instance byte order.  `this.size` is the byte
length of the buffer, fixed at construction; since the buffer is never
resized it is recovered as `data.length`. -/
structure ArrayBufferStream where
  data : List Nat
  cursor : Nat
  littleEndian : Bool
deriving DecidableEq

def ArrayBufferStream.size (s : ArrayBufferStream) : Nat := s.data.length

/-- The buffer-selection chain of the constructor (src/index.js lines 15-38):
the value `this.buffer` holds after the if/else chain, `none` standing for the
initial `null` that no branch replaced.  Both object branches test
`Object.prototype.toString(...).indexOf('ArrayBuffer') >= 0` where the
receiver-less call always yields "[object Object]", so they can never fire;
they are nevertheless kept structurally, with the assignments they would
perform. -/
def constructBuffer (arg : JSValue) : Except JSError (Option (List Nat)) :=
  let numValue := toNumber arg
  if !numValue.isNaN then
    (arrayBufferNew (jsMathFloor numValue)).map some
  else if typeofIsObject arg then
    if indexOfNonNeg (objectPrototypeToString (some arg)) "ArrayBuffer" then
      match arg with
      | .arrayBuffer bytes => .ok (some bytes)
      | _ => .ok none
    else if indexOfNonNeg (objectPrototypeToString (some (getDataProp arg)))
        "ArrayBuffer" then
      match arg with
      | .nodeBuffer bufferBytes byteOffset byteLength =>
          if !byteOffset.isNaN && !byteLength.isNaN then
            .ok (some ((bufferBytes.drop byteOffset.floorToNat).take
              byteLength.floorToNat))
          else .ok none
      | _ => .ok none
    else .ok none
  else .ok none

/-- The constructor (src/index.js lines 14-64): run the buffer-selection
chain, throw `Unsupported ...` if `this.buffer` is still null, otherwise set
`size`, `cursor = 0`, the `DataView` and the byte order. -/
def construct (arg : JSValue) (littleEndian : Bool) :
    Except JSError ArrayBufferStream :=
  match constructBuffer arg with
  | .error e => .error e
  | .ok none => .error .unsupportedConstruction
  | .ok (some bytes) => .ok ⟨bytes, 0, littleEndian⟩

/-- `setCursor(cursor)` (src/index.js lines 70-82); `+cursor` on a number
argument is the identity coercion. -/
def setCursor (s : ArrayBufferStream) (cursor : JsNumber) :
    ArrayBufferStream × Option JSError :=
  if cursor.isNaN then (s, some .invalidCursor)
  else if cursor.gtNat s.size || cursor.ltZero then (s, some .cursorOutOfRange)
  else ({ s with cursor := cursor.floorToNat }, none)

/-- `trimToCursor()`: `this.buffer.slice(0, this.cursor)` (lines 536-538). -/
def trimToCursor (s : ArrayBufferStream) : List Nat := s.data.take s.cursor

/-- `dv.setUint8(off, v)`: `ToUint8` truncates `v` and reduces it mod 256 to a
non-negative byte, stored if `off` is in range; otherwise a `RangeError` is
thrown without any mutation.  `dv.setInt8` stores the identical byte. -/
def dvSetUint8 (data : List Nat) (off : Nat) (v : Int) : Option (List Nat) :=
  if off + 1 ≤ data.length then some (data.set off (v.emod 256).toNat) else none

/-- `dv.getUint8(off)`: the byte at `off`, or a thrown `RangeError`. -/
def dvGetUint8 (data : List Nat) (off : Nat) : Option Nat := data[off]?

/-- A `w`-byte `DataView` store at `off` in the given byte order; the whole
width is bounds-checked before any byte is written. -/
def dvSetW (w : Nat) (data : List Nat) (off v : Nat) (le : Bool) :
    Option (List Nat) :=
  if off + w ≤ data.length then
    some (setBytes data off
      (if le then natToBytesLE w v else (natToBytesLE w v).reverse))
  else none

/-- A `w`-byte `DataView` load at `off` in the given byte order. -/
def dvGetW (w : Nat) (data : List Nat) (off : Nat) (le : Bool) : Option Nat :=
  if off + w ≤ data.length then
    some (natFromBytesLE
      (if le then getBytes data off w else (getBytes data off w).reverse))
  else none

/-- One `this.dv.setUint8(this.cursor++, enc v)`: the post-increment belongs
to the argument evaluation, so the cursor has already moved when the store
throws. -/
def write1Step (enc : α → Int) (s : ArrayBufferStream) (v : α) :
    ArrayBufferStream × Option JSError :=
  match dvSetUint8 s.data s.cursor (enc v) with
  | some d => ({ s with data := d, cursor := s.cursor + 1 }, none)
  | none => ({ s with cursor := s.cursor + 1 }, some .rangeError)

/-- One multi-byte store followed by `this.cursor += w`: when the store
throws, the cursor statement is never reached, so the state is unchanged. -/
def writeWStep (w : Nat) (enc : α → Nat) (s : ArrayBufferStream) (v : α) :
    ArrayBufferStream × Option JSError :=
  match dvSetW w s.data s.cursor (enc v) s.littleEndian with
  | some d => ({ s with data := d, cursor := s.cursor + w }, none)
  | none => (s, some .rangeError)

/-- Run a step over a variadic argument list; a thrown error aborts the loop
but every prior iteration's effect remains in place. -/
def runSeq (step : ArrayBufferStream → α → ArrayBufferStream × Option JSError) :
    ArrayBufferStream → List α → ArrayBufferStream × Option JSError
  | s, [] => (s, none)
  | s, v :: rest =>
    match step s v with
    | (s1, none) => runSeq step s1 rest
    | (s1, some e) => (s1, some e)

/-- One `this.dv.getUint8(this.cursor++)` read (post-increment as above). -/
def read1 (dec : Nat → α) (s : ArrayBufferStream) :
    ArrayBufferStream × Except JSError α :=
  match dvGetUint8 s.data s.cursor with
  | some b => ({ s with cursor := s.cursor + 1 }, .ok (dec b))
  | none => ({ s with cursor := s.cursor + 1 }, .error .rangeError)

/-- One multi-byte read followed by `this.cursor += w`. -/
def readW (w : Nat) (dec : Nat → α) (s : ArrayBufferStream) :
    ArrayBufferStream × Except JSError α :=
  match dvGetW w s.data s.cursor s.littleEndian with
  | some n => ({ s with cursor := s.cursor + w }, .ok (dec n))
  | none => (s, .error .rangeError)

/-- The batch-read loop `for(i < n) dest[i + offset] = get...(...)` for
single-byte element reads, with `j` the running destination index
`offset + i`.  `List.set` drops stores at out-of-range indices, exactly as a
typed array does. -/
def readArr1 (dec : Nat → α) :
    ArrayBufferStream → Nat → List α → Nat →
    ArrayBufferStream × List α × Option JSError
  | s, 0, dest, _ => (s, dest, none)
  | s, n + 1, dest, j =>
    match read1 dec s with
    | (s1, .ok v) => readArr1 dec s1 n (dest.set j v) (j + 1)
    | (s1, .error e) => (s1, dest, some e)

/-- The batch-read loop for `w`-byte element reads. -/
def readArrW (w : Nat) (dec : Nat → α) :
    ArrayBufferStream → Nat → List α → Nat →
    ArrayBufferStream × List α × Option JSError
  | s, 0, dest, _ => (s, dest, none)
  | s, n + 1, dest, j =>
    match readW w dec s with
    | (s1, .ok v) => readArrW w dec s1 n (dest.set j v) (j + 1)
    | (s1, .error e) => (s1, dest, some e)

/-- The `ToUintN`-style coercion a `DataView` store applies to its value
argument: truncate and reduce modulo `m` to a non-negative representative.
`setIntN` stores the same `N`-bit pattern, so it shares this encoding. -/
def toUintM (m : Nat) (v : Int) : Nat := (v.emod m).toNat

/-- Two's-complement reinterpretation of a stored `k`-bit pattern, as
`getIntN` performs it. -/
def toSigned (k : Nat) (n : Nat) : Int :=
  if n < 2 ^ (k - 1) then (n : Int) else (n : Int) - 2 ^ k

def BYTE_TO_NORM : ℚ := 1 / 255

def SHORT_TO_NORM : ℚ := 1 / 65535

/-- `writeUint8(...val)` (lines 88-93). -/
def writeUint8 (s : ArrayBufferStream) (val : List Int) :
    ArrayBufferStream × Option JSError :=
  runSeq (write1Step id) s val

/-- `getNextUint8()` (lines 98-100). -/
def getNextUint8 (s : ArrayBufferStream) : ArrayBufferStream × Except JSError Int :=
  read1 (fun b => (b : Int)) s

/-- `getNextUint8Array(length, dest, offset)` (lines 110-119); `dest = none`
models an absent (falsy) destination, for which a fresh zero container of
length `length` is allocated; `offset` is already a non-negative integer for
every claim, so `Math.floor(offset || 0)` is the identity on it. -/
def getNextUint8Array (s : ArrayBufferStream) (length : Nat)
    (dest : Option (List Int)) (offset : Nat) :
    ArrayBufferStream × List Int × Option JSError :=
  readArr1 (fun b => (b : Int)) s length (dest.getD (List.replicate length 0)) offset

/-- `writeInt8(...val)` (lines 125-130): `setInt8` stores the byte
`v mod 256` just as `setUint8` does. -/
def writeInt8 (s : ArrayBufferStream) (val : List Int) :
    ArrayBufferStream × Option JSError :=
  runSeq (write1Step id) s val

/-- `getNextInt8()` (lines 135-137). -/
def getNextInt8 (s : ArrayBufferStream) : ArrayBufferStream × Except JSError Int :=
  read1 (toSigned 8) s

/-- `getNextInt8Array` (lines 147-156). -/
def getNextInt8Array (s : ArrayBufferStream) (length : Nat)
    (dest : Option (List Int)) (offset : Nat) :
    ArrayBufferStream × List Int × Option JSError :=
  readArr1 (toSigned 8) s length (dest.getD (List.replicate length 0)) offset

/-- `writeUint16(...val)` (lines 162-168). -/
def writeUint16 (s : ArrayBufferStream) (val : List Int) :
    ArrayBufferStream × Option JSError :=
  runSeq (writeWStep 2 (toUintM 65536)) s val

/-- `getNextUint16()` (lines 173-178). -/
def getNextUint16 (s : ArrayBufferStream) : ArrayBufferStream × Except JSError Int :=
  readW 2 (fun n => (n : Int)) s

/-- `getNextUint16Array` (lines 188-198). -/
def getNextUint16Array (s : ArrayBufferStream) (length : Nat)
    (dest : Option (List Int)) (offset : Nat) :
    ArrayBufferStream × List Int × Option JSError :=
  readArrW 2 (fun n => (n : Int)) s length (dest.getD (List.replicate length 0)) offset

/-- `writeInt16(...val)` (lines 204-210). -/
def writeInt16 (s : ArrayBufferStream) (val : List Int) :
    ArrayBufferStream × Option JSError :=
  runSeq (writeWStep 2 (toUintM 65536)) s val

/-- `getNextInt16()` (lines 215-220). -/
def getNextInt16 (s : ArrayBufferStream) : ArrayBufferStream × Except JSError Int :=
  readW 2 (toSigned 16) s

/-- `getNextInt16Array` (lines 230-240). -/
def getNextInt16Array (s : ArrayBufferStream) (length : Nat)
    (dest : Option (List Int)) (offset : Nat) :
    ArrayBufferStream × List Int × Option JSError :=
  readArrW 2 (toSigned 16) s length (dest.getD (List.replicate length 0)) offset

/-- `writeUint32(...val)` (lines 246-252). -/
def writeUint32 (s : ArrayBufferStream) (val : List Int) :
    ArrayBufferStream × Option JSError :=
  runSeq (writeWStep 4 (toUintM 4294967296)) s val

/-- `getNextUint32()` (lines 257-262). -/
def getNextUint32 (s : ArrayBufferStream) : ArrayBufferStream × Except JSError Int :=
  readW 4 (fun n => (n : Int)) s

/-- `getNextUint32Array` (lines 272-282). -/
def getNextUint32Array (s : ArrayBufferStream) (length : Nat)
    (dest : Option (List Int)) (offset : Nat) :
    ArrayBufferStream × List Int × Option JSError :=
  readArrW 4 (fun n => (n : Int)) s length (dest.getD (List.replicate length 0)) offset

/-- `writeInt32(...val)` (lines 288-294). -/
def writeInt32 (s : ArrayBufferStream) (val : List Int) :
    ArrayBufferStream × Option JSError :=
  runSeq (writeWStep 4 (toUintM 4294967296)) s val

/-- `getNextInt32()` (lines 299-304). -/
def getNextInt32 (s : ArrayBufferStream) : ArrayBufferStream × Except JSError Int :=
  readW 4 (toSigned 32) s

/-- `getNextInt32Array` (lines 314-324). -/
def getNextInt32Array (s : ArrayBufferStream) (length : Nat)
    (dest : Option (List Int)) (offset : Nat) :
    ArrayBufferStream × List Int × Option JSError :=
  readArrW 4 (toSigned 32) s length (dest.getD (List.replicate length 0)) offset

/-- `writeUNorm8(...val)` (lines 330-335): `setUint8(cursor++,
Math.floor(val * 0xFF))`; the stray third argument of the source is ignored
by `setUint8`. -/
def writeUNorm8 (s : ArrayBufferStream) (val : List ℚ) :
    ArrayBufferStream × Option JSError :=
  runSeq (write1Step (fun q : ℚ => Int.floor (q * 255))) s val

/-- `getNextUNorm8()` (lines 340-343). -/
def getNextUNorm8 (s : ArrayBufferStream) : ArrayBufferStream × Except JSError ℚ :=
  read1 (fun b => (b : ℚ) * BYTE_TO_NORM) s

/-- `getNextUNorm8Array` (lines 353-362); the allocated container is a
Float32Array, modelled as a rational container. -/
def getNextUNorm8Array (s : ArrayBufferStream) (length : Nat)
    (dest : Option (List ℚ)) (offset : Nat) :
    ArrayBufferStream × List ℚ × Option JSError :=
  readArr1 (fun b => (b : ℚ) * BYTE_TO_NORM) s length
    (dest.getD (List.replicate length 0)) offset

/-- `writeUNorm16(...val)` (lines 368-374): `setUint16(cursor,
Math.floor(val * 0xFFFF))`. -/
def writeUNorm16 (s : ArrayBufferStream) (val : List ℚ) :
    ArrayBufferStream × Option JSError :=
  runSeq (writeWStep 2 (fun q : ℚ => toUintM 65536 (Int.floor (q * 65535)))) s val

/-- `getNextUNorm16()` (lines 379-384). -/
def getNextUNorm16 (s : ArrayBufferStream) : ArrayBufferStream × Except JSError ℚ :=
  readW 2 (fun n => (n : ℚ) * SHORT_TO_NORM) s

/-- `getNextUNorm16Array` (lines 394-404). -/
def getNextUNorm16Array (s : ArrayBufferStream) (length : Nat)
    (dest : Option (List ℚ)) (offset : Nat) :
    ArrayBufferStream × List ℚ × Option JSError :=
  readArrW 2 (fun n => (n : ℚ) * SHORT_TO_NORM) s length
    (dest.getD (List.replicate length 0)) offset

/-- `writeFloat32(...val)` (lines 410-416).  A float is modelled by its
IEEE-754 bit pattern; `setFloat32` lays the four pattern bytes out in the
instance's byte order. -/
def writeFloat32 (s : ArrayBufferStream) (val : List Nat) :
    ArrayBufferStream × Option JSError :=
  runSeq (writeWStep 4 (fun b => b % 4294967296)) s val

/-- `getNextFloat32()` (lines 421-426), returning the read bit pattern. -/
def getNextFloat32 (s : ArrayBufferStream) : ArrayBufferStream × Except JSError Nat :=
  readW 4 (fun n => n) s

/-- `getNextFloat32Array` (lines 436-446). -/
def getNextFloat32Array (s : ArrayBufferStream) (length : Nat)
    (dest : Option (List Nat)) (offset : Nat) :
    ArrayBufferStream × List Nat × Option JSError :=
  readArrW 4 (fun n => n) s length (dest.getD (List.replicate length 0)) offset

/-- `writeFloat64(...val)` (lines 452-458), on 64-bit patterns. -/
def writeFloat64 (s : ArrayBufferStream) (val : List Nat) :
    ArrayBufferStream × Option JSError :=
  runSeq (writeWStep 8 (fun b => b % 18446744073709551616)) s val

/-- `getNextFloat64()` (lines 463-468). -/
def getNextFloat64 (s : ArrayBufferStream) : ArrayBufferStream × Except JSError Nat :=
  readW 8 (fun n => n) s

/-- `getNextFloat64Array` (lines 478-488). -/
def getNextFloat64Array (s : ArrayBufferStream) (length : Nat)
    (dest : Option (List Nat)) (offset : Nat) :
    ArrayBufferStream × List Nat × Option JSError :=
  readArrW 8 (fun n => n) s length (dest.getD (List.replicate length 0)) offset

/-- `writeASCIIString(str)` (lines 499-507).  The string is modelled as its
UTF-16 code-unit list: the loop stores `str.charCodeAt(i)` through the same
post-incrementing single-byte step as `writeUint8` (so `setUint8` keeps the
low byte of each unit), and afterwards one `0x00` terminator is stored by the
identical step, which the appended `[0]` expresses. -/
def writeASCIIString (s : ArrayBufferStream) (str : List Nat) :
    ArrayBufferStream × Option JSError :=
  runSeq (write1Step (fun c : Nat => (c : Int))) s (str ++ [0])

/-- The read loop of `getNextASCIIString` (lines 519-524), phrased on the byte
suffix that starts at the cursor: the result is how many bytes the loop
consumed (the final `i - cursor`) together with the accumulated
non-terminator bytes. -/
def scanSuffix : List Nat → Nat × List Nat
  | [] => (0, [])
  | b :: rest =>
    if b = 0 then (1, [])
    else ((scanSuffix rest).1 + 1, b :: (scanSuffix rest).2)

/-- `getNextASCIIString()` (lines 513-530); the returned string is the list of
single-byte code points handed to `String.fromCharCode`. -/
def getNextASCIIString (s : ArrayBufferStream) : ArrayBufferStream × List Nat :=
  let r := scanSuffix (s.data.drop s.cursor)
  ({ s with cursor := s.cursor + r.1 }, r.2)

/-- Modelled from the spec: saturation of an integer input to `[lo, hi]`
(spec 4.1, clamped scalar write: "values above the maximum become the
maximum, values below the minimum become the minimum"). -/
def clampI (lo hi v : Int) : Int := min hi (max lo v)

/-- Modelled from the spec: `writeUint8Clamped`, which the test suite calls
and the README documents but which is absent from src/index.js — the input is
saturated to `[0, 255]` and then written exactly as `writeUint8` writes it. -/
def writeUint8Clamped (s : ArrayBufferStream) (val : List Int) :
    ArrayBufferStream × Option JSError :=
  writeUint8 s (val.map (clampI 0 255))

/-- Modelled from the spec: `writeInt8Clamped` (absent from src/index.js),
saturating to `[-128, 127]`. -/
def writeInt8Clamped (s : ArrayBufferStream) (val : List Int) :
    ArrayBufferStream × Option JSError :=
  writeInt8 s (val.map (clampI (-128) 127))

/-- Modelled from the spec: `writeUint16Clamped` (absent from src/index.js),
saturating to `[0, 65535]`. -/
def writeUint16Clamped (s : ArrayBufferStream) (val : List Int) :
    ArrayBufferStream × Option JSError :=
  writeUint16 s (val.map (clampI 0 65535))

/-- Modelled from the spec: `writeInt16Clamped` (absent from src/index.js),
saturating to `[-32768, 32767]`. -/
def writeInt16Clamped (s : ArrayBufferStream) (val : List Int) :
    ArrayBufferStream × Option JSError :=
  writeInt16 s (val.map (clampI (-32768) 32767))

/-- Modelled from the spec: `writeUint32Clamped` (absent from src/index.js),
saturating to `[0, 4294967295]`. -/
def writeUint32Clamped (s : ArrayBufferStream) (val : List Int) :
    ArrayBufferStream × Option JSError :=
  writeUint32 s (val.map (clampI 0 4294967295))

/-- Modelled from the spec: `writeInt32Clamped` (absent from src/index.js),
saturating to `[-2147483648, 2147483647]`. -/
def writeInt32Clamped (s : ArrayBufferStream) (val : List Int) :
    ArrayBufferStream × Option JSError :=
  writeInt32 s (val.map (clampI (-2147483648) 2147483647))

/-- Modelled from the spec: saturation of the normalized input to `[0, 1]`
before the scale-and-floor step (spec 4.1, clamped write variant). -/
def clampQ (v : ℚ) : ℚ := min 1 (max 0 v)

/-- Modelled from the spec: `writeUNorm8Clamped` (absent from src/index.js). -/
def writeUNorm8Clamped (s : ArrayBufferStream) (val : List ℚ) :
    ArrayBufferStream × Option JSError :=
  writeUNorm8 s (val.map clampQ)

/-- Modelled from the spec: `writeUNorm16Clamped` (absent from src/index.js). -/
def writeUNorm16Clamped (s : ArrayBufferStream) (val : List ℚ) :
    ArrayBufferStream × Option JSError :=
  writeUNorm16 s (val.map clampQ)

/-- A concrete eight-byte little-endian stream used as witness input. -/
def exLE : ArrayBufferStream := ⟨List.replicate 8 0, 0, true⟩

/-- A concrete eight-byte big-endian stream used as witness input. -/
def exBE : ArrayBufferStream := ⟨List.replicate 8 0, 0, false⟩

instance : DecidableEq (Except JSError ArrayBufferStream) := fun x y =>
  match x, y with
  | .ok a, .ok b =>
      if h : a = b then isTrue (by rw [h]) else isFalse (by simp [h])
  | .error a, .error b =>
      if h : a = b then isTrue (by rw [h]) else isFalse (by simp [h])
  | .ok _, .error _ => isFalse (by simp)
  | .error _, .ok _ => isFalse (by simp)

theorem natToBytesLE_length (w n : Nat) : (natToBytesLE w n).length = w := by
  induction w generalizing n with
  | zero => rfl
  | succ w ih => simp [natToBytesLE, ih]

theorem natToBytesLE_lt (w n : Nat) : ∀ b ∈ natToBytesLE w n, b < 256 := by
  induction w generalizing n with
  | zero => simp [natToBytesLE]
  | succ w ih =>
      intro b hb
      simp only [natToBytesLE, List.mem_cons] at hb
      rcases hb with h | h
      · omega
      · exact ih _ _ h

theorem mod_mul_decomp (n M : Nat) (hM : 0 < M) :
    n % (256 * M) = n % 256 + 256 * (n / 256 % M) := by
  have h1 : n % 256 + 256 * (n / 256 % M) < 256 * M := by
    have hr : n % 256 < 256 := Nat.mod_lt _ (by omega)
    have hq : n / 256 % M < M := Nat.mod_lt _ hM
    omega
  have h2 : n = n % 256 + 256 * (n / 256 % M) + (256 * M) * (n / 256 / M) := by
    have e1 : 256 * (n / 256) + n % 256 = n := Nat.div_add_mod n 256
    have e2 : M * (n / 256 / M) + n / 256 % M = n / 256 := Nat.div_add_mod (n / 256) M
    calc n = 256 * (n / 256) + n % 256 := e1.symm
      _ = 256 * (M * (n / 256 / M) + n / 256 % M) + n % 256 := by rw [e2]
      _ = n % 256 + 256 * (n / 256 % M) + (256 * M) * (n / 256 / M) := by ring
  calc n % (256 * M) = (n % 256 + 256 * (n / 256 % M) + (256 * M) * (n / 256 / M)) % (256 * M) := by
        rw [← h2]
    _ = (n % 256 + 256 * (n / 256 % M)) % (256 * M) := by
        rw [Nat.add_mul_mod_self_left]
    _ = n % 256 + 256 * (n / 256 % M) := Nat.mod_eq_of_lt h1

theorem natFromBytesLE_natToBytesLE (w n : Nat) :
    natFromBytesLE (natToBytesLE w n) = n % 2 ^ (8 * w) := by
  induction w generalizing n with
  | zero => simp [natToBytesLE, natFromBytesLE, Nat.mod_one]
  | succ w ih =>
      have hpow : (2 : Nat) ^ (8 * (w + 1)) = 256 * 2 ^ (8 * w) := by
        rw [Nat.mul_succ, Nat.pow_add]
        ring
      rw [natToBytesLE, natFromBytesLE, ih, hpow,
        mod_mul_decomp n (2 ^ (8 * w)) (Nat.pos_pow_of_pos _ (by omega))]

theorem setBytes_length (bs : List Nat) : ∀ (data : List Nat) (off : Nat),
    (setBytes data off bs).length = data.length := by
  induction bs with
  | nil => intro data off; rfl
  | cons b bs ih =>
      intro data off
      rw [setBytes, ih]
      simp

theorem setBytes_getElem?_lt (bs : List Nat) : ∀ (data : List Nat) (off i : Nat),
    i < off → (setBytes data off bs)[i]? = data[i]? := by
  induction bs with
  | nil => intro data off i _; rfl
  | cons b bs ih =>
      intro data off i hi
      rw [setBytes, ih _ _ _ (by omega)]
      exact List.getElem?_set_ne (by omega)

theorem setBytes_getElem?_ge (bs : List Nat) : ∀ (data : List Nat) (off i : Nat),
    off + bs.length ≤ i → (setBytes data off bs)[i]? = data[i]? := by
  induction bs with
  | nil => intro data off i _; rfl
  | cons b bs ih =>
      intro data off i hi
      simp only [List.length_cons] at hi
      rw [setBytes, ih _ _ _ (by omega)]
      exact List.getElem?_set_ne (by omega)

theorem getBytes_setBytes (bs : List Nat) : ∀ (data : List Nat) (off : Nat),
    off + bs.length ≤ data.length →
    getBytes (setBytes data off bs) off bs.length = bs := by
  induction bs with
  | nil => intro data off _; simp [getBytes, setBytes]
  | cons b bs ih =>
      intro data off h
      simp only [List.length_cons] at h
      have hlen : off < data.length := by omega
      have hdrop :
          (setBytes (data.set off b) (off + 1) bs).drop off
            = b :: (setBytes (data.set off b) (off + 1) bs).drop (off + 1) := by
        have hl : off < (setBytes (data.set off b) (off + 1) bs).length := by
          rw [setBytes_length]; simpa using hlen
        rw [List.drop_eq_getElem_cons hl]
        congr 1
        have := setBytes_getElem?_lt bs (data.set off b) (off + 1) off (by omega)
        have hset : (data.set off b)[off]? = some b :=
          List.getElem?_set_eq_of_lt _ hlen
        have hval : (setBytes (data.set off b) (off + 1) bs)[off]? = some b := by
          rw [this, hset]
        rw [List.getElem?_eq_getElem hl] at hval
        exact Option.some.inj hval
      rw [setBytes, getBytes, hdrop]
      simp only [List.length_cons, List.take_succ_cons]
      congr 1
      have := ih (data.set off b) (off + 1) (by rw [List.length_set]; omega)
      simpa [getBytes] using this

theorem write1Step_success (enc : α → Int) (s : ArrayBufferStream) (v : α)
    (h : s.cursor < s.size) :
    write1Step enc s v =
      ({ s with data := s.data.set s.cursor ((enc v).emod 256).toNat,
                cursor := s.cursor + 1 }, none) := by
  unfold write1Step dvSetUint8
  rw [if_pos (by exact h)]

theorem write1Step_fail (enc : α → Int) (s : ArrayBufferStream) (v : α)
    (h : s.size ≤ s.cursor) :
    write1Step enc s v = ({ s with cursor := s.cursor + 1 }, some .rangeError) := by
  unfold write1Step dvSetUint8
  rw [if_neg (by simp only [ArrayBufferStream.size] at h; omega)]

theorem writeWStep_success (w : Nat) (enc : α → Nat) (s : ArrayBufferStream)
    (v : α) (h : s.cursor + w ≤ s.size) :
    writeWStep w enc s v =
      ({ s with
          data := setBytes s.data s.cursor
            (if s.littleEndian then natToBytesLE w (enc v)
             else (natToBytesLE w (enc v)).reverse),
          cursor := s.cursor + w }, none) := by
  unfold writeWStep dvSetW
  rw [if_pos (by exact h)]

theorem writeWStep_fail (w : Nat) (enc : α → Nat) (s : ArrayBufferStream)
    (v : α) (h : s.size < s.cursor + w) :
    writeWStep w enc s v = (s, some .rangeError) := by
  unfold writeWStep dvSetW
  rw [if_neg (by simp only [ArrayBufferStream.size] at h; omega)]

theorem write1Step_size (enc : α → Int) (s : ArrayBufferStream) (v : α) :
    (write1Step enc s v).1.size = s.size := by
  by_cases h : s.cursor < s.size
  · rw [write1Step_success enc s v h]
    simp [ArrayBufferStream.size]
  · rw [write1Step_fail enc s v (by omega)]
    rfl

theorem writeWStep_size (w : Nat) (enc : α → Nat) (s : ArrayBufferStream) (v : α) :
    (writeWStep w enc s v).1.size = s.size := by
  by_cases h : s.cursor + w ≤ s.size
  · rw [writeWStep_success w enc s v h]
    simp [ArrayBufferStream.size, setBytes_length]
  · rw [writeWStep_fail w enc s v (by omega)]

theorem write1Step_littleEndian (enc : α → Int) (s : ArrayBufferStream) (v : α) :
    (write1Step enc s v).1.littleEndian = s.littleEndian := by
  by_cases h : s.cursor < s.size
  · rw [write1Step_success enc s v h]
  · rw [write1Step_fail enc s v (by omega)]

theorem writeWStep_littleEndian (w : Nat) (enc : α → Nat) (s : ArrayBufferStream)
    (v : α) :
    (writeWStep w enc s v).1.littleEndian = s.littleEndian := by
  by_cases h : s.cursor + w ≤ s.size
  · rw [writeWStep_success w enc s v h]
  · rw [writeWStep_fail w enc s v (by omega)]

theorem read1_success (dec : Nat → α) (s : ArrayBufferStream)
    (h : s.cursor < s.data.length) :
    read1 dec s = ({ s with cursor := s.cursor + 1 },
      .ok (dec (s.data.get ⟨s.cursor, h⟩))) := by
  unfold read1 dvGetUint8
  rw [List.getElem?_eq_getElem h]
  rfl

theorem read1_fail (dec : Nat → α) (s : ArrayBufferStream)
    (h : s.size ≤ s.cursor) :
    read1 dec s = ({ s with cursor := s.cursor + 1 }, .error .rangeError) := by
  unfold read1 dvGetUint8
  rw [List.getElem?_eq_none (by exact h)]

theorem readW_success (w : Nat) (dec : Nat → α) (s : ArrayBufferStream)
    (h : s.cursor + w ≤ s.size) :
    readW w dec s = ({ s with cursor := s.cursor + w },
      .ok (dec (natFromBytesLE
        (if s.littleEndian then getBytes s.data s.cursor w
         else (getBytes s.data s.cursor w).reverse)))) := by
  unfold readW dvGetW
  rw [if_pos (by exact h)]

theorem readW_fail (w : Nat) (dec : Nat → α) (s : ArrayBufferStream)
    (h : s.size < s.cursor + w) :
    readW w dec s = (s, .error .rangeError) := by
  unfold readW dvGetW
  rw [if_neg (by simp only [ArrayBufferStream.size] at h; omega)]

theorem runSeq_nil (step : ArrayBufferStream → α → ArrayBufferStream × Option JSError)
    (s : ArrayBufferStream) : runSeq step s [] = (s, none) := rfl

theorem runSeq_singleton
    (step : ArrayBufferStream → α → ArrayBufferStream × Option JSError)
    (s : ArrayBufferStream) (v : α) : runSeq step s [v] = step s v := by
  rw [runSeq]
  rcases step s v with ⟨s1, e⟩
  cases e <;> rfl

theorem runSeq_cursor_of_success (w : Nat)
    (step : ArrayBufferStream → α → ArrayBufferStream × Option JSError)
    (hstep : ∀ s v, (step s v).2 = none → (step s v).1.cursor = s.cursor + w) :
    ∀ (vals : List α) (s : ArrayBufferStream), (runSeq step s vals).2 = none →
      (runSeq step s vals).1.cursor = s.cursor + vals.length * w := by
  intro vals
  induction vals with
  | nil => intro s _; simp [runSeq]
  | cons v rest ih =>
      intro s hok
      rw [runSeq] at hok ⊢
      rcases hv : step s v with ⟨s1, e⟩
      rw [hv] at hok
      cases e with
      | none =>
          dsimp only at hok ⊢
          have h1 : s1.cursor = s.cursor + w := by
            have := hstep s v (by rw [hv])
            rwa [hv] at this
          rw [ih s1 hok, h1, List.length_cons]
          ring
      | some e =>
          simp at hok

theorem runSeq_size_of_sizes
    (step : ArrayBufferStream → α → ArrayBufferStream × Option JSError)
    (hstep : ∀ s v, (step s v).1.size = s.size) :
    ∀ (vals : List α) (s : ArrayBufferStream),
      (runSeq step s vals).1.size = s.size := by
  intro vals
  induction vals with
  | nil => intro s; rfl
  | cons v rest ih =>
      intro s
      rw [runSeq]
      rcases hv : step s v with ⟨s1, e⟩
      have h1 : s1.size = s.size := by
        have := hstep s v
        rwa [hv] at this
      cases e with
      | none => simp only; rw [ih s1, h1]
      | some e => exact h1

theorem runSeq_inv
    (step : ArrayBufferStream → α → ArrayBufferStream × Option JSError)
    (P : ArrayBufferStream → Prop)
    (hstep : ∀ s v, (step s v).2 = none → P (step s v).1) :
    ∀ (vals : List α) (s : ArrayBufferStream), P s →
      (runSeq step s vals).2 = none → P (runSeq step s vals).1 := by
  intro vals
  induction vals with
  | nil => intro s hP _; exact hP
  | cons v rest ih =>
      intro s hP hok
      rw [runSeq] at hok ⊢
      rcases hv : step s v with ⟨s1, e⟩
      rw [hv] at hok
      cases e with
      | none =>
          dsimp only at hok ⊢
          have h1 : P s1 := by
            have := hstep s v (by rw [hv])
            rwa [hv] at this
          exact ih s1 h1 hok
      | some e => simp at hok

theorem read1_of_getElem? (dec : Nat → α) (s : ArrayBufferStream) (b : Nat)
    (h : s.data[s.cursor]? = some b) :
    read1 dec s = ({ s with cursor := s.cursor + 1 }, .ok (dec b)) := by
  unfold read1 dvGetUint8
  rw [h]

theorem write1_read1_roundtrip (enc : α → Int) (dec : Nat → β)
    (s : ArrayBufferStream) (v : α) (h : s.cursor < s.size) :
    (write1Step enc s v).2 = none ∧
    (read1 dec { (write1Step enc s v).1 with cursor := s.cursor }).2
      = .ok (dec ((enc v).emod 256).toNat) := by
  rw [write1Step_success enc s v h]
  refine ⟨rfl, ?_⟩
  have hget : (s.data.set s.cursor ((enc v).emod 256).toNat)[s.cursor]?
      = some ((enc v).emod 256).toNat :=
    List.getElem?_set_eq_of_lt _ h
  rw [read1_of_getElem? dec _ _ hget]

theorem writeW_readW_roundtrip (w : Nat) (enc : α → Nat) (dec : Nat → β)
    (s : ArrayBufferStream) (v : α) (h : s.cursor + w ≤ s.size) :
    (writeWStep w enc s v).2 = none ∧
    (readW w dec { (writeWStep w enc s v).1 with cursor := s.cursor }).2
      = .ok (dec (enc v % 2 ^ (8 * w))) := by
  rw [writeWStep_success w enc s v h]
  refine ⟨rfl, ?_⟩
  have hblen : (if s.littleEndian then natToBytesLE w (enc v)
      else (natToBytesLE w (enc v)).reverse).length = w := by
    by_cases hle : s.littleEndian <;>
      simp [hle, natToBytesLE_length]
  have hsz : (setBytes s.data s.cursor
      (if s.littleEndian then natToBytesLE w (enc v)
       else (natToBytesLE w (enc v)).reverse)).length = s.data.length :=
    setBytes_length _ _ _
  have hread := readW_success w dec
    ({ s with
        data := setBytes s.data s.cursor
          (if s.littleEndian then natToBytesLE w (enc v)
           else (natToBytesLE w (enc v)).reverse),
        cursor := s.cursor })
    (by simpa [ArrayBufferStream.size, hsz] using h)
  rw [hread]
  have hgb : getBytes (setBytes s.data s.cursor
      (if s.littleEndian then natToBytesLE w (enc v)
       else (natToBytesLE w (enc v)).reverse)) s.cursor w
      = (if s.littleEndian then natToBytesLE w (enc v)
         else (natToBytesLE w (enc v)).reverse) := by
    have := getBytes_setBytes
      (if s.littleEndian then natToBytesLE w (enc v)
       else (natToBytesLE w (enc v)).reverse) s.data s.cursor
      (by rw [hblen]; exact h)
    rwa [hblen] at this
  by_cases hle : s.littleEndian
  · simp only [hle, if_true]
    simp only [hle, if_true] at hgb
    rw [hgb, natFromBytesLE_natToBytesLE]
  · have hle2 : s.littleEndian = false := by
      cases hb : s.littleEndian
      · rfl
      · exact absurd hb hle
    simp only [hle2, Bool.false_eq_true, if_false] at hgb ⊢
    rw [hgb, List.reverse_reverse, natFromBytesLE_natToBytesLE]

theorem toUintM_eq_toNat (m : Nat) (v : Int) (h0 : 0 ≤ v) (h1 : v < (m : Int)) :
    toUintM m v = v.toNat := by
  unfold toUintM
  rw [show v.emod (m : Int) = v % (m : Int) from rfl,
    Int.emod_eq_of_lt h0 (by exact_mod_cast h1)]

theorem toSigned_eight (v : Int) (h1 : -128 ≤ v) (h2 : v ≤ 127) :
    toSigned 8 ((v.emod 256).toNat) = v := by
  unfold toSigned
  rw [show v.emod 256 = v % 256 from rfl]
  split_ifs with hc
  · norm_num at hc
    omega
  · norm_num at hc
    omega

theorem toSigned_sixteen (v : Int) (h1 : -32768 ≤ v) (h2 : v ≤ 32767) :
    toSigned 16 ((v.emod 65536).toNat) = v := by
  unfold toSigned
  rw [show v.emod 65536 = v % 65536 from rfl]
  split_ifs with hc
  · norm_num at hc
    omega
  · norm_num at hc
    omega

theorem toSigned_thirtytwo (v : Int) (h1 : -2147483648 ≤ v) (h2 : v ≤ 2147483647) :
    toSigned 32 ((v.emod 4294967296).toNat) = v := by
  unfold toSigned
  rw [show v.emod 4294967296 = v % 4294967296 from rfl]
  split_ifs with hc
  · norm_num at hc
    omega
  · norm_num at hc
    omega

theorem floor_scale_bounds (q m : ℚ) (h0 : 0 ≤ q) (h1 : q ≤ 1) (hm : 0 < m) :
    0 ≤ Int.floor (q * m) ∧ Int.floor (q * m) ≤ Int.floor m := by
  constructor
  · exact Int.floor_nonneg.mpr (by positivity)
  · have hq : q * m ≤ m := mul_le_of_le_one_left (by positivity) h1
    exact Int.floor_mono hq

theorem unorm_tolerance (q m : ℚ) (hm : 0 < m) :
    |q - (Int.floor (q * m) : ℚ) * (1 / m)| ≤ 1 / m := by
  have hfl : (Int.floor (q * m) : ℚ) ≤ q * m := Int.floor_le _
  have hfu : q * m < Int.floor (q * m) + 1 := Int.lt_floor_add_one _
  have hlow : (Int.floor (q * m) : ℚ) * (1 / m) ≤ q := by
    rw [mul_one_div, div_le_iff₀ hm]
    exact hfl
  have hhigh : q - (Int.floor (q * m) : ℚ) * (1 / m) ≤ 1 / m := by
    rw [mul_one_div, sub_le_iff_le_add, div_add_div_same, le_div_iff₀ hm]
    linarith
  rw [abs_of_nonneg (by linarith)]
  exact hhigh

theorem runSeq_writeW_shape (w : Nat) (enc1 : α → Nat) (enc2 : β → Nat) :
    ∀ (v1 : List α) (v2 : List β) (s1 s2 : ArrayBufferStream),
      v1.length = v2.length → s1.cursor = s2.cursor → s1.size = s2.size →
      (runSeq (writeWStep w enc1) s1 v1).2 = (runSeq (writeWStep w enc2) s2 v2).2 ∧
      (runSeq (writeWStep w enc1) s1 v1).1.cursor
        = (runSeq (writeWStep w enc2) s2 v2).1.cursor := by
  intro v1
  induction v1 with
  | nil =>
      intro v2 s1 s2 hlen hc hs
      cases v2 with
      | nil => exact ⟨rfl, hc⟩
      | cons b v2 => simp at hlen
  | cons a v1 ih =>
      intro v2 s1 s2 hlen hc hs
      cases v2 with
      | nil => simp at hlen
      | cons b v2 =>
          simp only [List.length_cons] at hlen
          rw [runSeq, runSeq]
          by_cases hb : s1.cursor + w ≤ s1.size
          · rw [writeWStep_success w enc1 s1 a hb,
              writeWStep_success w enc2 s2 b (by rw [← hc, ← hs]; exact hb)]
            dsimp only
            apply ih v2 _ _ (by omega)
            · exact congrArg (· + w) hc
            · simp only [ArrayBufferStream.size, setBytes_length]
              exact hs
          · rw [writeWStep_fail w enc1 s1 a (by omega),
              writeWStep_fail w enc2 s2 b (by rw [← hc, ← hs]; omega)]
            exact ⟨rfl, hc⟩

theorem runSeq_write1_shape (enc1 : α → Int) (enc2 : β → Int) :
    ∀ (v1 : List α) (v2 : List β) (s1 s2 : ArrayBufferStream),
      v1.length = v2.length → s1.cursor = s2.cursor → s1.size = s2.size →
      (runSeq (write1Step enc1) s1 v1).2 = (runSeq (write1Step enc2) s2 v2).2 ∧
      (runSeq (write1Step enc1) s1 v1).1.cursor
        = (runSeq (write1Step enc2) s2 v2).1.cursor := by
  intro v1
  induction v1 with
  | nil =>
      intro v2 s1 s2 hlen hc hs
      cases v2 with
      | nil => exact ⟨rfl, hc⟩
      | cons b v2 => simp at hlen
  | cons a v1 ih =>
      intro v2 s1 s2 hlen hc hs
      cases v2 with
      | nil => simp at hlen
      | cons b v2 =>
          simp only [List.length_cons] at hlen
          rw [runSeq, runSeq]
          by_cases hb : s1.cursor < s1.size
          · rw [write1Step_success enc1 s1 a hb,
              write1Step_success enc2 s2 b (by rw [← hc, ← hs]; exact hb)]
            dsimp only
            apply ih v2 _ _ (by omega)
            · exact congrArg (· + 1) hc
            · simp only [ArrayBufferStream.size, List.length_set]
              exact hs
          · rw [write1Step_fail enc1 s1 a (by omega),
              write1Step_fail enc2 s2 b (by rw [← hc, ← hs]; omega)]
            exact ⟨rfl, congrArg (· + 1) hc⟩

theorem scanSuffix_bytes (l : List Nat) :
    (scanSuffix l).2 = l.takeWhile (fun b => b != 0) := by
  induction l with
  | nil => rfl
  | cons b rest ih =>
      by_cases hb : b = 0
      · subst hb
        simp [scanSuffix, List.takeWhile]
      · rw [scanSuffix, List.takeWhile]
        simp only [if_neg hb]
        have hbne : (b != 0) = true := by simpa using hb
        rw [hbne]
        simpa using ih

theorem scanSuffix_count (l : List Nat) :
    (scanSuffix l).1 =
      if (l.takeWhile (fun b => b != 0)).length < l.length
      then (l.takeWhile (fun b => b != 0)).length + 1
      else l.length := by
  induction l with
  | nil => rfl
  | cons b rest ih =>
      by_cases hb : b = 0
      · subst hb
        simp [scanSuffix, List.takeWhile]
      · rw [scanSuffix]
        simp only [if_neg hb]
        have hbne : (b != 0) = true := by simpa using hb
        rw [List.takeWhile, hbne]
        simp only [List.length_cons]
        have htw : (rest.takeWhile (fun b => b != 0)).length ≤ rest.length :=
          ( List.takeWhile_prefix _).length_le
        by_cases hlt : (rest.takeWhile (fun b => b != 0)).length < rest.length
        · rw [ih, if_pos hlt, if_pos (by omega)]
        · rw [ih, if_neg hlt, if_neg (by omega)]

theorem readArr1_spec (dec : Nat → α) :
    ∀ (n : Nat) (s : ArrayBufferStream) (dest : List α) (j : Nat),
      s.cursor + n ≤ s.size → j + n ≤ dest.length →
      (readArr1 dec s n dest j).2.2 = none ∧
      (readArr1 dec s n dest j).1 = { s with cursor := s.cursor + n } ∧
      (readArr1 dec s n dest j).2.1.length = dest.length ∧
      (∀ k : Nat, j ≤ k → k < j + n →
        (readArr1 dec s n dest j).2.1[k]?
          = some (dec ((s.data[s.cursor + (k - j)]?).getD 0))) ∧
      (∀ k : Nat, k < j ∨ j + n ≤ k →
        (readArr1 dec s n dest j).2.1[k]? = dest[k]?) := by
  intro n
  induction n with
  | zero =>
      intro s dest j hs hd
      refine ⟨rfl, by cases s; simp [readArr1], rfl, ?_, ?_⟩
      · intro k hk1 hk2
        omega
      · intro k hk
        rfl
  | succ n ih =>
      intro s dest j hs hd
      have hc : s.cursor < s.data.length := by
        simp only [ArrayBufferStream.size] at hs
        omega
      rw [readArr1, read1_success dec s hc]
      dsimp only
      have hrec := ih { s with cursor := s.cursor + 1 }
        (dest.set j (dec (s.data.get ⟨s.cursor, hc⟩))) (j + 1)
        (by simp only [ArrayBufferStream.size] at hs ⊢; omega)
        (by rw [List.length_set]; omega)
      obtain ⟨he, hst, hlen, hfill, hkeep⟩ := hrec
      have hadd : s.cursor + 1 + n = s.cursor + (n + 1) := by omega
      refine ⟨he, by rw [hst]; simp only; rw [hadd], by rw [hlen, List.length_set], ?_, ?_⟩
      · intro k hk1 hk2
        by_cases hkj : k = j
        · subst hkj
          rw [hkeep k (by omega), List.getElem?_set_eq_of_lt _ (by omega)]
          have : s.cursor + (k - k) = s.cursor := by omega
          rw [this, List.getElem?_eq_getElem hc]
          rfl
        · have hk3 : j + 1 ≤ k := by omega
          rw [hfill k hk3 (by omega)]
          simp only
          have : s.cursor + 1 + (k - (j + 1)) = s.cursor + (k - j) := by omega
          rw [this]
      · intro k hk
        rw [hkeep k (by omega), List.getElem?_set_ne (by omega)]

theorem readArrW_spec (w : Nat) (dec : Nat → α) :
    ∀ (n : Nat) (s : ArrayBufferStream) (dest : List α) (j : Nat),
      s.cursor + n * w ≤ s.size → j + n ≤ dest.length →
      (readArrW w dec s n dest j).2.2 = none ∧
      (readArrW w dec s n dest j).1 = { s with cursor := s.cursor + n * w } ∧
      (readArrW w dec s n dest j).2.1.length = dest.length ∧
      (∀ k : Nat, j ≤ k → k < j + n →
        (readArrW w dec s n dest j).2.1[k]?
          = some (dec (natFromBytesLE
              (if s.littleEndian then getBytes s.data (s.cursor + (k - j) * w) w
               else (getBytes s.data (s.cursor + (k - j) * w) w).reverse)))) ∧
      (∀ k : Nat, k < j ∨ j + n ≤ k →
        (readArrW w dec s n dest j).2.1[k]? = dest[k]?) := by
  intro n
  induction n with
  | zero =>
      intro s dest j hs hd
      refine ⟨rfl, by cases s; simp [readArrW], rfl, ?_, ?_⟩
      · intro k hk1 hk2
        omega
      · intro k hk
        rfl
  | succ n ih =>
      intro s dest j hs hd
      have hc : s.cursor + w ≤ s.size := by
        have : w ≤ (n + 1) * w := Nat.le_mul_of_pos_left w (by omega)
        omega
      rw [readArrW, readW_success w dec s hc]
      dsimp only
      have hrec := ih { s with cursor := s.cursor + w }
        (dest.set j (dec (natFromBytesLE
          (if s.littleEndian then getBytes s.data s.cursor w
           else (getBytes s.data s.cursor w).reverse)))) (j + 1)
        (by simp only [ArrayBufferStream.size] at hs ⊢
            have : (n + 1) * w = n * w + w := by ring
            omega)
        (by rw [List.length_set]; omega)
      obtain ⟨he, hst, hlen, hfill, hkeep⟩ := hrec
      have hadd : s.cursor + w + n * w = s.cursor + (n + 1) * w := by ring
      refine ⟨he, by rw [hst]; simp only; rw [hadd], by rw [hlen, List.length_set], ?_, ?_⟩
      · intro k hk1 hk2
        by_cases hkj : k = j
        · subst hkj
          rw [hkeep k (by omega), List.getElem?_set_eq_of_lt _ (by omega)]
          have : s.cursor + (k - k) * w = s.cursor := by
            have : k - k = 0 := by omega
            rw [this]
            ring
          rw [this]
        · have hk3 : j + 1 ≤ k := by omega
          rw [hfill k hk3 (by omega)]
          simp only
          have : s.cursor + w + (k - (j + 1)) * w = s.cursor + (k - j) * w := by
            have h1 : k - j = (k - (j + 1)) + 1 := by omega
            rw [h1]
            ring
          rw [this]
      · intro k hk
        rw [hkeep k (by omega), List.getElem?_set_ne (by omega)]

theorem write1Step_inv (enc : α → Int) (s : ArrayBufferStream) (v : α)
    (h : (write1Step enc s v).2 = none) :
    (write1Step enc s v).1.cursor ≤ (write1Step enc s v).1.size := by
  by_cases hc : s.cursor < s.size
  · rw [write1Step_success enc s v hc]
    simp only [ArrayBufferStream.size, List.length_set]
    simp only [ArrayBufferStream.size] at hc
    omega
  · rw [write1Step_fail enc s v (by omega)] at h
    simp at h

theorem writeWStep_inv (w : Nat) (enc : α → Nat) (s : ArrayBufferStream) (v : α)
    (h : (writeWStep w enc s v).2 = none) :
    (writeWStep w enc s v).1.cursor ≤ (writeWStep w enc s v).1.size := by
  by_cases hc : s.cursor + w ≤ s.size
  · rw [writeWStep_success w enc s v hc]
    simp only [ArrayBufferStream.size, setBytes_length]
    simp only [ArrayBufferStream.size] at hc
    omega
  · rw [writeWStep_fail w enc s v (by omega)] at h
    simp at h

theorem read1_inv (dec : Nat → α) (s : ArrayBufferStream) (a : α)
    (h : (read1 dec s).2 = .ok a) :
    (read1 dec s).1.cursor ≤ (read1 dec s).1.size := by
  by_cases hc : s.cursor < s.data.length
  · rw [read1_success dec s hc]
    simp only [ArrayBufferStream.size]
    omega
  · rw [read1_fail dec s (by simp only [ArrayBufferStream.size]; omega)] at h
    simp at h

theorem readW_inv (w : Nat) (dec : Nat → α) (s : ArrayBufferStream) (a : α)
    (h : (readW w dec s).2 = .ok a) :
    (readW w dec s).1.cursor ≤ (readW w dec s).1.size := by
  by_cases hc : s.cursor + w ≤ s.size
  · rw [readW_success w dec s hc]
    simp only [ArrayBufferStream.size] at hc ⊢
    omega
  · rw [readW_fail w dec s (by omega)] at h
    simp at h

theorem readArr1_inv (dec : Nat → α) :
    ∀ (n : Nat) (s : ArrayBufferStream) (dest : List α) (j : Nat),
      s.cursor ≤ s.size → (readArr1 dec s n dest j).2.2 = none →
      (readArr1 dec s n dest j).1.cursor ≤ (readArr1 dec s n dest j).1.size := by
  intro n
  induction n with
  | zero => intro s dest j h _; exact h
  | succ n ih =>
      intro s dest j h hok
      rw [readArr1] at hok ⊢
      by_cases hc : s.cursor < s.data.length
      · rw [read1_success dec s hc] at hok ⊢
        dsimp only at hok ⊢
        exact ih _ _ _ (by simp only [ArrayBufferStream.size]; omega) hok
      · rw [read1_fail dec s (by simp only [ArrayBufferStream.size]; omega)] at hok
        simp at hok

theorem readArrW_inv (w : Nat) (dec : Nat → α) :
    ∀ (n : Nat) (s : ArrayBufferStream) (dest : List α) (j : Nat),
      s.cursor ≤ s.size → (readArrW w dec s n dest j).2.2 = none →
      (readArrW w dec s n dest j).1.cursor ≤ (readArrW w dec s n dest j).1.size := by
  intro n
  induction n with
  | zero => intro s dest j h _; exact h
  | succ n ih =>
      intro s dest j h hok
      rw [readArrW] at hok ⊢
      by_cases hc : s.cursor + w ≤ s.size
      · rw [readW_success w dec s hc] at hok ⊢
        dsimp only at hok ⊢
        exact ih _ _ _ (by simp only [ArrayBufferStream.size] at hc ⊢; omega) hok
      · rw [readW_fail w dec s (by omega)] at hok
        simp at hok

theorem scanSuffix_count_le (l : List Nat) : (scanSuffix l).1 ≤ l.length := by
  rw [scanSuffix_count]
  by_cases hlt : (l.takeWhile (fun b => b != 0)).length < l.length
  · rw [if_pos hlt]
    omega
  · rw [if_neg hlt]

theorem getNextASCIIString_inv (s : ArrayBufferStream) (h : s.cursor ≤ s.size) :
    (getNextASCIIString s).1.cursor ≤ (getNextASCIIString s).1.size := by
  unfold getNextASCIIString
  simp only [ArrayBufferStream.size]
  have h1 := scanSuffix_count_le (s.data.drop s.cursor)
  rw [List.length_drop] at h1
  simp only [ArrayBufferStream.size] at h
  omega

theorem runSeq_append
    (step : ArrayBufferStream → α → ArrayBufferStream × Option JSError)
    (l1 l2 : List α) :
    ∀ s, (runSeq step s l1).2 = none →
      runSeq step s (l1 ++ l2) = runSeq step (runSeq step s l1).1 l2 := by
  induction l1 with
  | nil => intro s _; rfl
  | cons v l1 ih =>
      intro s hok
      rw [runSeq] at hok
      rw [List.cons_append, runSeq]
      rcases hv : step s v with ⟨s1, e⟩
      rw [hv] at hok
      cases e with
      | none =>
          dsimp only at hok ⊢
          rw [ih s1 hok]
          have hshift : runSeq step s (v :: l1) = runSeq step s1 l1 := by
            rw [runSeq, hv]
          rw [hshift]
      | some e => simp at hok

/-- C1: the claim says construction from an ArrayBuffer (the fromRegion path)
succeeds and adopts the buffer as storage.  Evaluating the constructor at an
ArrayBuffer argument shows it instead throws the `Unsupported` construction
error: `Object.prototype.toString(arg)` is invoked without `.call`, always
yields "[object Object]", and "[object Object]" does not contain
"ArrayBuffer", so the adoption branch can never be taken. -/
theorem c1_fromRegion_throws :
    construct (.arrayBuffer [1, 2, 3, 4]) false = .error .unsupportedConstruction ∧
    construct (.arrayBuffer [1, 2, 3, 4]) true = .error .unsupportedConstruction ∧
    indexOfNonNeg (objectPrototypeToString (some (.arrayBuffer [1, 2, 3, 4])))
      "ArrayBuffer" = false := by
  have hidx : indexOfNonNeg "[object Object]" "ArrayBuffer" = false := by decide
  refine ⟨?_, ?_, hidx⟩ <;>
    simp [construct, constructBuffer, toNumber, JsNumber.isNaN, typeofIsObject,
      objectPrototypeToString, getDataProp, hidx]

/-- C10: every constructor argument whose numeric coercion is a finite
non-negative value — a numeric string, a boolean, a one-element numeric
array, and so on — takes the size path: a fresh zero-filled buffer of
`floor(coerced value)` bytes with cursor 0, not a construction error. -/
theorem c10_coerced_size_construction (arg : JSValue) (le : Bool) (q : ℚ)
    (hq : toNumber arg = .finite q) (h0 : 0 ≤ q) :
    construct arg le = .ok ⟨List.replicate (Int.floor q).toNat 0, 0, le⟩ := by
  have hfloor : ¬ ((Int.floor q : ℚ) < 0) := by
    push_neg
    exact_mod_cast Int.floor_nonneg.mpr h0
  have hbuf : constructBuffer arg
      = .ok (some (List.replicate (Int.floor q).toNat 0)) := by
    unfold constructBuffer
    rw [hq]
    simp only [JsNumber.isNaN, Bool.not_false, if_true, jsMathFloor, arrayBufferNew,
      if_neg hfloor, Except.map]
    rw [Int.floor_intCast]
  unfold construct
  rw [hbuf]

/-- Witness for C10 at the claim's own examples: the string "64", a boolean,
and a one-element numeric array all construct buffers via the size path. -/
theorem c10_coerced_size_construction_witness :
    construct (.str "64") true
      = .ok ⟨List.replicate (Int.floor (64 : ℚ)).toNat 0, 0, true⟩ ∧
    construct (.boolean true) false
      = .ok ⟨List.replicate (Int.floor (1 : ℚ)).toNat 0, 0, false⟩ ∧
    construct (.numArray [.finite 5]) false
      = .ok ⟨List.replicate (Int.floor (5 : ℚ)).toNat 0, 0, false⟩ :=
  ⟨c10_coerced_size_construction _ _ 64 (by decide) (by norm_num),
   c10_coerced_size_construction _ _ 1 (by decide) (by norm_num),
   c10_coerced_size_construction _ _ 5 (by decide) (by norm_num)⟩

/-- C6: `setCursor` fails exactly when the numeric position is NaN, infinite,
negative, or greater than `length`; on success it truncates toward zero
(`Math.floor` on the non-negative in-range value), sets the cursor, and in
every case the stored data is untouched. -/
theorem c6_setCursor_contract (s : ArrayBufferStream) (p : JsNumber) :
    ((setCursor s p).2 ≠ none ↔
      ¬ ∃ q : ℚ, p = .finite q ∧ 0 ≤ q ∧ q ≤ (s.size : ℚ)) ∧
    (setCursor s p).1.data = s.data ∧
    (∀ q : ℚ, p = .finite q → 0 ≤ q → q ≤ (s.size : ℚ) →
      setCursor s p = ({ s with cursor := (Int.floor q).toNat }, none)) := by
  cases p with
  | nan =>
      refine ⟨?_, rfl, ?_⟩
      · simp [setCursor, JsNumber.isNaN]
      · intro q hq
        exact absurd hq (by simp)
  | posInf =>
      refine ⟨?_, ?_, ?_⟩
      · simp only [setCursor, JsNumber.isNaN, JsNumber.gtNat, Bool.true_or, if_false]
        simp
      · simp [setCursor, JsNumber.isNaN, JsNumber.gtNat]
      · intro q hq
        exact absurd hq (by simp)
  | negInf =>
      refine ⟨?_, ?_, ?_⟩
      · simp only [setCursor, JsNumber.isNaN, JsNumber.gtNat, JsNumber.ltZero]
        simp
      · simp [setCursor, JsNumber.isNaN, JsNumber.gtNat, JsNumber.ltZero]
      · intro q hq
        exact absurd hq (by simp)
  | finite q =>
      by_cases hbad : (s.size : ℚ) < q ∨ q < 0
      · have hcond : (JsNumber.gtNat (.finite q) s.size || JsNumber.ltZero (.finite q)) = true := by
          rcases hbad with h | h
          · simp [JsNumber.gtNat, h]
          · simp [JsNumber.ltZero, h]
        refine ⟨?_, ?_, ?_⟩
        · simp only [setCursor, JsNumber.isNaN, if_false, hcond, if_true]
          constructor
          · intro _ hex
            rcases hex with ⟨q2, hq2, h0, hle⟩
            have : q2 = q := by
              injection hq2 with h
              exact h.symm
            subst this
            rcases hbad with h | h
            · exact absurd hle (by push_neg; exact h)
            · exact absurd h0 (by push_neg; exact h)
          · intro _
            simp
        · simp [setCursor, JsNumber.isNaN, hcond]
        · intro q2 hq2 h0 hle
          have : q2 = q := by
            injection hq2 with h
            exact h.symm
          subst this
          rcases hbad with h | h
          · exact absurd hle (by push_neg; exact h)
          · exact absurd h0 (by push_neg; exact h)
      · push_neg at hbad
        have hcond : (JsNumber.gtNat (.finite q) s.size || JsNumber.ltZero (.finite q)) = false := by
          simp [JsNumber.gtNat, JsNumber.ltZero]
          constructor
          · exact hbad.1
          · exact hbad.2
        refine ⟨?_, ?_, ?_⟩
        · simp only [setCursor, JsNumber.isNaN, if_false, hcond]
          simp only [JsNumber.floorToNat]
          constructor
          · intro hcontra
            exact absurd rfl hcontra
          · intro hex
            exact absurd ⟨q, rfl, hbad.2, hbad.1⟩ hex
        · simp [setCursor, JsNumber.isNaN, hcond, JsNumber.floorToNat]
        · intro q2 hq2 h0 hle
          have : q2 = q := by
            injection hq2 with h
            exact h.symm
          subst this
          simp [setCursor, JsNumber.isNaN, hcond, JsNumber.floorToNat]

/-- Witness for C6: on the concrete eight-byte stream, `setCursor(5.5)`
succeeds, truncates to 5, and touches no data. -/
theorem c6_setCursor_contract_witness :
    setCursor exLE (.finite (11 / 2)) = ({ exLE with cursor := (Int.floor ((11 : ℚ) / 2)).toNat }, none) :=
  (c6_setCursor_contract exLE (.finite (11 / 2))).2.2 (11 / 2) rfl
    (by norm_num) (by norm_num [exLE, ArrayBufferStream.size])

/-- C3 counterexample: on a 1-byte stream built from size 1, with the cursor
legitimately placed at `length` by `setCursor(1)`, `writeUint8` throws — but
only after `this.cursor++` has moved the cursor to `length + 1`, outside
`[0, length]`, refuting the claim that the operation fails "before ... moving
the cursor outside [0, length]" for `writeUint8` at `cursor = length`. -/
theorem c3_cursor_invariant_cex :
    construct (.num (.finite 1)) false = .ok ⟨[0], 0, false⟩ ∧
    setCursor ⟨[0], 0, false⟩ (.finite 1) = (⟨[0], 1, false⟩, none) ∧
    writeUint8 ⟨[0], 1, false⟩ [42] = (⟨[0], 2, false⟩, some .rangeError) ∧
    ¬ ((⟨[0], 2, false⟩ : ArrayBufferStream).cursor
        ≤ (⟨[0], 2, false⟩ : ArrayBufferStream).size) := by
  refine ⟨by decide, by decide, by decide, by decide⟩

/-- C3 (amended): in every state reachable through successful operations,
`0 <= cursor <= length` holds — construction starts the cursor at 0,
`setCursor` range-checks, and every successful operation (the generic
single-byte and `w`-byte write steps, scalar reads, batch array reads, and the
ASCII codec cover all of them) keeps `cursor ≤ length`; an operation whose
byte-width requirement would overrun the buffer fails without mutating
storage, with multi-byte operations leaving the cursor unchanged — but the
single-byte operations `writeUint8`, `getNextUint8`, `writeUNorm8` and
`writeASCIIString` invoked at `cursor = length` fail only after the
post-increment has left the cursor at `length + 1`. -/
theorem c3_cursor_invariant_amended :
    (∀ (arg : JSValue) (le : Bool) (s : ArrayBufferStream),
      construct arg le = .ok s → s.cursor = 0 ∧ s.cursor ≤ s.size) ∧
    (∀ (s : ArrayBufferStream) (p : JsNumber), (setCursor s p).2 = none →
      (setCursor s p).1.cursor ≤ (setCursor s p).1.size) ∧
    (∀ (α : Type) (enc : α → Int) (vals : List α) (s : ArrayBufferStream),
      s.cursor ≤ s.size → (runSeq (write1Step enc) s vals).2 = none →
      (runSeq (write1Step enc) s vals).1.cursor
        ≤ (runSeq (write1Step enc) s vals).1.size) ∧
    (∀ (w : Nat) (α : Type) (enc : α → Nat) (vals : List α) (s : ArrayBufferStream),
      s.cursor ≤ s.size → (runSeq (writeWStep w enc) s vals).2 = none →
      (runSeq (writeWStep w enc) s vals).1.cursor
        ≤ (runSeq (writeWStep w enc) s vals).1.size) ∧
    (∀ (α : Type) (dec : Nat → α) (s : ArrayBufferStream) (a : α),
      (read1 dec s).2 = .ok a →
      (read1 dec s).1.cursor ≤ (read1 dec s).1.size) ∧
    (∀ (w : Nat) (α : Type) (dec : Nat → α) (s : ArrayBufferStream) (a : α),
      (readW w dec s).2 = .ok a →
      (readW w dec s).1.cursor ≤ (readW w dec s).1.size) ∧
    (∀ (α : Type) (dec : Nat → α) (n : Nat) (s : ArrayBufferStream)
        (dest : List α) (j : Nat),
      s.cursor ≤ s.size → (readArr1 dec s n dest j).2.2 = none →
      (readArr1 dec s n dest j).1.cursor ≤ (readArr1 dec s n dest j).1.size) ∧
    (∀ (w : Nat) (α : Type) (dec : Nat → α) (n : Nat) (s : ArrayBufferStream)
        (dest : List α) (j : Nat),
      s.cursor ≤ s.size → (readArrW w dec s n dest j).2.2 = none →
      (readArrW w dec s n dest j).1.cursor ≤ (readArrW w dec s n dest j).1.size) ∧
    (∀ (s : ArrayBufferStream), s.cursor ≤ s.size →
      (getNextASCIIString s).1.cursor ≤ (getNextASCIIString s).1.size) ∧
    (∀ (w : Nat) (α : Type) (enc : α → Nat) (s : ArrayBufferStream) (v : α),
      s.size < s.cursor + w → writeWStep w enc s v = (s, some .rangeError)) ∧
    (∀ (s : ArrayBufferStream) (v : Int), s.cursor = s.size →
      writeUint8 s [v] = ({ s with cursor := s.size + 1 }, some .rangeError)) ∧
    (∀ (s : ArrayBufferStream), s.cursor = s.size →
      getNextUint8 s = ({ s with cursor := s.size + 1 }, .error .rangeError)) ∧
    (∀ (s : ArrayBufferStream) (q : ℚ), s.cursor = s.size →
      writeUNorm8 s [q] = ({ s with cursor := s.size + 1 }, some .rangeError)) ∧
    (∀ (s : ArrayBufferStream) (str : List Nat), s.cursor = s.size →
      writeASCIIString s str = ({ s with cursor := s.size + 1 }, some .rangeError)) := by
  refine ⟨?_, ?_, ?_, ?_, ?_, ?_, ?_, ?_, ?_, ?_, ?_, ?_, ?_, ?_⟩
  · intro arg le s h
    unfold construct at h
    rcases hb : constructBuffer arg with e | ob
    · rw [hb] at h
      exact absurd h (by simp)
    · rw [hb] at h
      cases ob with
      | none => exact absurd h (by simp)
      | some bytes =>
          have hs : s = ⟨bytes, 0, le⟩ := (Except.ok.inj h).symm
          subst hs
          exact ⟨rfl, Nat.zero_le _⟩
  · intro s p h
    cases p with
    | nan => exact absurd h (by simp [setCursor, JsNumber.isNaN])
    | posInf => exact absurd h (by simp [setCursor, JsNumber.isNaN, JsNumber.gtNat])
    | negInf =>
        exact absurd h
          (by simp [setCursor, JsNumber.isNaN, JsNumber.gtNat, JsNumber.ltZero])
    | finite q =>
        by_cases hbad : (JsNumber.gtNat (.finite q) s.size
            || JsNumber.ltZero (.finite q)) = true
        · exact absurd h (by simp [setCursor, JsNumber.isNaN, hbad])
        · have hcond : (JsNumber.gtNat (.finite q) s.size
              || JsNumber.ltZero (.finite q)) = false := by
            cases hx : (JsNumber.gtNat (.finite q) s.size
                || JsNumber.ltZero (.finite q))
            · rfl
            · exact absurd hx hbad
          have hqle : q ≤ (s.size : ℚ) := by
            have hgt : JsNumber.gtNat (.finite q) s.size = false := by
              rcases Bool.or_eq_false_iff.mp hcond with ⟨h1, _⟩
              exact h1
            simp only [JsNumber.gtNat, decide_eq_false_iff_not] at hgt
            exact le_of_not_lt hgt
          have hfle : (Int.floor q).toNat ≤ s.size := by
            have h1 : Int.floor q ≤ (s.size : Int) := by
              have := Int.floor_mono hqle
              rwa [Int.floor_natCast] at this
            omega
          have hset : setCursor s (.finite q)
              = ({ s with cursor := (Int.floor q).toNat }, none) := by
            unfold setCursor
            rw [show (JsNumber.finite q).isNaN = false from rfl, hcond]
            simp [JsNumber.floorToNat]
          rw [hset]
          simpa [ArrayBufferStream.size] using hfle
  · intro α enc vals s hs hok
    exact runSeq_inv (write1Step enc) (fun t => t.cursor ≤ t.size)
      (fun t v hv => write1Step_inv enc t v hv) vals s hs hok
  · intro w α enc vals s hs hok
    exact runSeq_inv (writeWStep w enc) (fun t => t.cursor ≤ t.size)
      (fun t v hv => writeWStep_inv w enc t v hv) vals s hs hok
  · intro α dec s a h
    exact read1_inv dec s a h
  · intro w α dec s a h
    exact readW_inv w dec s a h
  · intro α dec n s dest j hs hok
    exact readArr1_inv dec n s dest j hs hok
  · intro w α dec n s dest j hs hok
    exact readArrW_inv w dec n s dest j hs hok
  · intro s hs
    exact getNextASCIIString_inv s hs
  · intro w α enc s v h
    exact writeWStep_fail w enc s v h
  · intro s v h
    unfold writeUint8
    rw [runSeq_singleton, write1Step_fail _ _ _ (by omega), h]
  · intro s h
    unfold getNextUint8
    rw [read1_fail _ _ (by omega), h]
  · intro s q h
    unfold writeUNorm8
    rw [runSeq_singleton, write1Step_fail _ _ _ (by omega), h]
  · intro s str h
    unfold writeASCIIString
    rcases hstr : str ++ [0] with _ | ⟨c, rest⟩
    · exact absurd hstr (by simp)
    · rw [runSeq, write1Step_fail _ _ _ (by omega), h]

/-- Witness for the amended C3 at concrete inputs: a successful two-value
write keeps the cursor inside the buffer, and `writeUint8` at
`cursor = length` on the one-byte stream ends with the cursor at 2. -/
theorem c3_cursor_invariant_amended_witness :
    ((runSeq (write1Step (fun v : Int => v)) exLE [5, 6]).1.cursor
      ≤ (runSeq (write1Step (fun v : Int => v)) exLE [5, 6]).1.size) ∧
    writeUint8 ⟨[0], 1, false⟩ [7]
      = ({ (⟨[0], 1, false⟩ : ArrayBufferStream) with cursor := 1 + 1 },
         some .rangeError) := by
  constructor
  · exact c3_cursor_invariant_amended.2.2.1 Int (fun v => v) [5, 6] exLE
      (by decide) (by decide)
  · exact c3_cursor_invariant_amended.2.2.2.2.2.2.2.2.2.2.1 ⟨[0], 1, false⟩ 7 (by decide)

theorem write1Step_cursor_of_success (enc : α → Int) (s : ArrayBufferStream)
    (v : α) (h : (write1Step enc s v).2 = none) :
    (write1Step enc s v).1.cursor = s.cursor + 1 := by
  by_cases hc : s.cursor < s.size
  · rw [write1Step_success enc s v hc]
  · rw [write1Step_fail enc s v (by omega)] at h
    simp at h

theorem writeWStep_cursor_of_success (w : Nat) (enc : α → Nat)
    (s : ArrayBufferStream) (v : α) (h : (writeWStep w enc s v).2 = none) :
    (writeWStep w enc s v).1.cursor = s.cursor + w := by
  by_cases hc : s.cursor + w ≤ s.size
  · rw [writeWStep_success w enc s v hc]
  · rw [writeWStep_fail w enc s v (by omega)] at h
    simp at h

theorem readW_cursor_of_success (w : Nat) (dec : Nat → α)
    (s : ArrayBufferStream) (a : α) (h : (readW w dec s).2 = .ok a) :
    (readW w dec s).1.cursor = s.cursor + w := by
  by_cases hc : s.cursor + w ≤ s.size
  · rw [readW_success w dec s hc]
  · rw [readW_fail w dec s (by omega)] at h
    simp at h

/-- C9: every multi-byte scalar access (the u16/i16/u32/i32/f32/f64/UNorm16
operations all instantiate `writeWStep` or `readW`) attempted with fewer than
`w` bytes of room fails with cursor and storage completely unchanged, because
the cursor advance follows the `DataView` access; in a variadic call the
effects of earlier, successful elements of the same call stay in place, and
the failing element leaves the state reached after them; `writeUint16` and
`getNextFloat64` are the cited instances. -/
theorem c9_multibyte_fail_statewise :
    (∀ (w : Nat) (α : Type) (enc : α → Nat) (s : ArrayBufferStream) (v : α),
      s.size < s.cursor + w → writeWStep w enc s v = (s, some .rangeError)) ∧
    (∀ (w : Nat) (α : Type) (dec : Nat → α) (s : ArrayBufferStream),
      s.size < s.cursor + w → readW w dec s = (s, .error .rangeError)) ∧
    (∀ (w : Nat) (α : Type) (enc : α → Nat) (s : ArrayBufferStream)
        (pre : List α) (v : α) (rest : List α),
      (runSeq (writeWStep w enc) s pre).2 = none →
      (runSeq (writeWStep w enc) s pre).1.size
        < (runSeq (writeWStep w enc) s pre).1.cursor + w →
      runSeq (writeWStep w enc) s (pre ++ v :: rest)
        = ((runSeq (writeWStep w enc) s pre).1, some .rangeError)) ∧
    (∀ (s : ArrayBufferStream) (v : Int), s.size < s.cursor + 2 →
      writeUint16 s [v] = (s, some .rangeError)) ∧
    (∀ (s : ArrayBufferStream), s.size < s.cursor + 8 →
      getNextFloat64 s = (s, .error .rangeError)) := by
  refine ⟨?_, ?_, ?_, ?_, ?_⟩
  · intro w α enc s v h
    exact writeWStep_fail w enc s v h
  · intro w α dec s h
    exact readW_fail w dec s h
  · intro w α enc s pre v rest hok hlt
    rw [runSeq_append _ pre (v :: rest) s hok, runSeq,
      writeWStep_fail _ _ _ _ hlt]
  · intro s v h
    unfold writeUint16
    rw [runSeq_singleton, writeWStep_fail _ _ _ _ h]
  · intro s h
    unfold getNextFloat64
    rw [readW_fail _ _ _ h]

/-- Witness for C9: on a one-byte stream, `writeUint16` and `getNextFloat64`
fail and leave the state exactly as it was. -/
theorem c9_multibyte_fail_statewise_witness :
    writeUint16 ⟨[0], 0, false⟩ [513] = (⟨[0], 0, false⟩, some .rangeError) ∧
    getNextFloat64 ⟨[0], 0, false⟩ = (⟨[0], 0, false⟩, .error .rangeError) :=
  ⟨c9_multibyte_fail_statewise.2.2.2.1 ⟨[0], 0, false⟩ 513 (by decide),
   c9_multibyte_fail_statewise.2.2.2.2 ⟨[0], 0, false⟩ (by decide)⟩

/-- C5: a successful operation advances the cursor by exactly the number of
values processed times the element width: `n` single-byte writes by `n`, `n`
`w`-byte writes by `n * w`, a `w`-byte scalar read by `w`, an in-bounds batch
read of `n` elements by `n * w` (width 1 for byte elements), and
`writeASCIIString` of an `L`-character text by `L + 1`; `writeFloat64` is the
cited 8-byte instance. -/
theorem c5_cursor_advancement :
    (∀ (α : Type) (enc : α → Int) (vals : List α) (s : ArrayBufferStream),
      (runSeq (write1Step enc) s vals).2 = none →
      (runSeq (write1Step enc) s vals).1.cursor = s.cursor + vals.length * 1) ∧
    (∀ (w : Nat) (α : Type) (enc : α → Nat) (vals : List α) (s : ArrayBufferStream),
      (runSeq (writeWStep w enc) s vals).2 = none →
      (runSeq (writeWStep w enc) s vals).1.cursor = s.cursor + vals.length * w) ∧
    (∀ (w : Nat) (α : Type) (dec : Nat → α) (s : ArrayBufferStream) (a : α),
      (readW w dec s).2 = .ok a → (readW w dec s).1.cursor = s.cursor + w) ∧
    (∀ (α : Type) (dec : Nat → α) (n : Nat) (s : ArrayBufferStream)
        (dest : List α) (j : Nat),
      s.cursor + n ≤ s.size → j + n ≤ dest.length →
      (readArr1 dec s n dest j).1.cursor = s.cursor + n * 1) ∧
    (∀ (w : Nat) (α : Type) (dec : Nat → α) (n : Nat) (s : ArrayBufferStream)
        (dest : List α) (j : Nat),
      s.cursor + n * w ≤ s.size → j + n ≤ dest.length →
      (readArrW w dec s n dest j).1.cursor = s.cursor + n * w) ∧
    (∀ (s : ArrayBufferStream) (str : List Nat),
      (writeASCIIString s str).2 = none →
      (writeASCIIString s str).1.cursor = s.cursor + (str.length + 1)) ∧
    (∀ (vals : List Nat) (s : ArrayBufferStream),
      (writeFloat64 s vals).2 = none →
      (writeFloat64 s vals).1.cursor = s.cursor + vals.length * 8) := by
  have h1 : ∀ (α : Type) (enc : α → Int) (vals : List α) (s : ArrayBufferStream),
      (runSeq (write1Step enc) s vals).2 = none →
      (runSeq (write1Step enc) s vals).1.cursor = s.cursor + vals.length * 1 := by
    intro α enc vals s hok
    exact runSeq_cursor_of_success 1 (write1Step enc)
      (fun t v hv => write1Step_cursor_of_success enc t v hv) vals s hok
  have hW : ∀ (w : Nat) (α : Type) (enc : α → Nat) (vals : List α)
      (s : ArrayBufferStream),
      (runSeq (writeWStep w enc) s vals).2 = none →
      (runSeq (writeWStep w enc) s vals).1.cursor = s.cursor + vals.length * w := by
    intro w α enc vals s hok
    exact runSeq_cursor_of_success w (writeWStep w enc)
      (fun t v hv => writeWStep_cursor_of_success w enc t v hv) vals s hok
  refine ⟨h1, hW, ?_, ?_, ?_, ?_, ?_⟩
  · intro w α dec s a h
    exact readW_cursor_of_success w dec s a h
  · intro α dec n s dest j hs hd
    have := (readArr1_spec dec n s dest j hs hd).2.1
    rw [this]
    simp
  · intro w α dec n s dest j hs hd
    have := (readArrW_spec w dec n s dest j hs hd).2.1
    rw [this]
  · intro s str hok
    unfold writeASCIIString at hok ⊢
    have := h1 Nat (fun c => (c : Int)) (str ++ [0]) s hok
    rw [this]
    simp [List.length_append]
  · intro vals s hok
    unfold writeFloat64 at hok ⊢
    exact hW 8 Nat (fun b => b % 18446744073709551616) vals s hok

/-- Witness for C5: writing the two-character text advances the cursor by 3,
and one `writeFloat64` advances it by 8, on the concrete eight-byte stream. -/
theorem c5_cursor_advancement_witness :
    (writeASCIIString exLE [84, 101]).1.cursor = exLE.cursor + (2 + 1) ∧
    (writeFloat64 exLE [513]).1.cursor = exLE.cursor + 1 * 8 := by
  constructor
  · have := c5_cursor_advancement.2.2.2.2.2.1 exLE [84, 101] (by decide)
    simpa using this
  · exact c5_cursor_advancement.2.2.2.2.2.2 [513] exLE (by decide)

/-- C7: `getNextASCIIString` returns exactly the bytes from the cursor up to,
and not including, the first `0x00` byte or the end of the buffer, mutates no
storage, and leaves the cursor one past the terminator when one was found
(equivalently, when the returned prefix stops before the end) and at `length`
otherwise. -/
theorem c7_ascii_read_contract (s : ArrayBufferStream) (h : s.cursor ≤ s.size) :
    (getNextASCIIString s).2 = (s.data.drop s.cursor).takeWhile (fun b => b != 0) ∧
    (getNextASCIIString s).1.data = s.data ∧
    (getNextASCIIString s).1.littleEndian = s.littleEndian ∧
    (getNextASCIIString s).1.cursor =
      (if s.cursor + ((s.data.drop s.cursor).takeWhile (fun b => b != 0)).length
          < s.size
       then s.cursor + ((s.data.drop s.cursor).takeWhile (fun b => b != 0)).length + 1
       else s.size) := by
  refine ⟨?_, rfl, rfl, ?_⟩
  · unfold getNextASCIIString
    exact scanSuffix_bytes _
  · unfold getNextASCIIString
    simp only
    rw [scanSuffix_count]
    have hdl : (s.data.drop s.cursor).length = s.data.length - s.cursor :=
      List.length_drop _ _
    have htw : ((s.data.drop s.cursor).takeWhile (fun b => b != 0)).length
        ≤ (s.data.drop s.cursor).length := ( List.takeWhile_prefix _).length_le
    simp only [ArrayBufferStream.size] at h ⊢
    by_cases hlt : ((s.data.drop s.cursor).takeWhile (fun b => b != 0)).length
        < (s.data.drop s.cursor).length
    · rw [if_pos hlt, if_pos (by omega)]
      omega
    · rw [if_neg hlt, if_neg (by omega)]
      omega

/-- Witness for C7 on a concrete buffer `[84, 101, 0, 65]` read from cursor 0:
the returned bytes are `[84, 101]` and the cursor lands one past the
terminator, at 3. -/
theorem c7_ascii_read_contract_witness :
    (getNextASCIIString ⟨[84, 101, 0, 65], 0, false⟩).2 = [84, 101] ∧
    (getNextASCIIString ⟨[84, 101, 0, 65], 0, false⟩).1.cursor = 3 := by
  have := c7_ascii_read_contract ⟨[84, 101, 0, 65], 0, false⟩ (by decide)
  refine ⟨?_, ?_⟩
  · rw [this.1]
    decide
  · rw [this.2.2.2]
    decide

theorem emod256_toNat_cast (v : Int) (h0 : 0 ≤ v) (h1 : v ≤ 255) :
    (((v.emod 256).toNat : ℕ) : Int) = v := by
  rw [show v.emod 256 = v % 256 from rfl]
  omega

theorem toUintM_mod_cast (m : Nat) (v : Int) (h0 : 0 ≤ v) (h1 : v < (m : Int)) :
    ((toUintM m v % m : ℕ) : Int) = v := by
  rw [toUintM_eq_toNat m v h0 h1]
  have hlt : v.toNat < m := by omega
  rw [Nat.mod_eq_of_lt hlt]
  omega

theorem toUintM_mod_self (m : Nat) (v : Int) (hm : 0 < m) :
    toUintM m v % m = toUintM m v := by
  unfold toUintM
  have hne : ((m : Int)) ≠ 0 := by exact_mod_cast hm.ne'
  have h1 : v.emod (m : Int) < (m : Int) := Int.emod_lt_of_pos v (by exact_mod_cast hm)
  have h0 : 0 ≤ v.emod (m : Int) := Int.emod_nonneg v hne
  apply Nat.mod_eq_of_lt
  omega

theorem floor255_le (q : ℚ) (h0 : 0 ≤ q) (h1 : q ≤ 1) :
    0 ≤ Int.floor (q * 255) ∧ Int.floor (q * 255) ≤ 255 := by
  have hb := floor_scale_bounds q 255 h0 h1 (by norm_num)
  have h255 : Int.floor ((255 : ℚ)) = 255 := by norm_num
  omega

theorem floor65535_le (q : ℚ) (h0 : 0 ≤ q) (h1 : q ≤ 1) :
    0 ≤ Int.floor (q * 65535) ∧ Int.floor (q * 65535) ≤ 65535 := by
  have hb := floor_scale_bounds q 65535 h0 h1 (by norm_num)
  have h65535 : Int.floor ((65535 : ℚ)) = 65535 := by norm_num
  omega

theorem floorToNat_cast_rat (z : Int) (h : 0 ≤ z) : ((z.toNat : ℕ) : ℚ) = (z : ℚ) := by
  exact_mod_cast congrArg (fun y : ℤ => (y : ℚ)) (Int.toNat_of_nonneg h)

/-- C4: write-then-read-back at the original cursor position is the identity
for every supported numeric kind, every representable value, either byte
order (the stream's `littleEndian` flag is arbitrary), and every in-bounds
cursor: u8/i8/u16/i16/u32/i32 recover the integer exactly, f32/f64 recover
the exact bit pattern, and UNorm8/UNorm16 recover the value within `1/255`
and `1/65535` respectively. -/
theorem c4_write_read_roundtrip :
    (∀ (s : ArrayBufferStream) (v : Int), 0 ≤ v → v ≤ 255 →
      s.cursor + 1 ≤ s.size →
      (writeUint8 s [v]).2 = none ∧
      (getNextUint8 { (writeUint8 s [v]).1 with cursor := s.cursor }).2 = .ok v) ∧
    (∀ (s : ArrayBufferStream) (v : Int), -128 ≤ v → v ≤ 127 →
      s.cursor + 1 ≤ s.size →
      (writeInt8 s [v]).2 = none ∧
      (getNextInt8 { (writeInt8 s [v]).1 with cursor := s.cursor }).2 = .ok v) ∧
    (∀ (s : ArrayBufferStream) (v : Int), 0 ≤ v → v ≤ 65535 →
      s.cursor + 2 ≤ s.size →
      (writeUint16 s [v]).2 = none ∧
      (getNextUint16 { (writeUint16 s [v]).1 with cursor := s.cursor }).2 = .ok v) ∧
    (∀ (s : ArrayBufferStream) (v : Int), -32768 ≤ v → v ≤ 32767 →
      s.cursor + 2 ≤ s.size →
      (writeInt16 s [v]).2 = none ∧
      (getNextInt16 { (writeInt16 s [v]).1 with cursor := s.cursor }).2 = .ok v) ∧
    (∀ (s : ArrayBufferStream) (v : Int), 0 ≤ v → v ≤ 4294967295 →
      s.cursor + 4 ≤ s.size →
      (writeUint32 s [v]).2 = none ∧
      (getNextUint32 { (writeUint32 s [v]).1 with cursor := s.cursor }).2 = .ok v) ∧
    (∀ (s : ArrayBufferStream) (v : Int), -2147483648 ≤ v → v ≤ 2147483647 →
      s.cursor + 4 ≤ s.size →
      (writeInt32 s [v]).2 = none ∧
      (getNextInt32 { (writeInt32 s [v]).1 with cursor := s.cursor }).2 = .ok v) ∧
    (∀ (s : ArrayBufferStream) (b : Nat), b < 4294967296 →
      s.cursor + 4 ≤ s.size →
      (writeFloat32 s [b]).2 = none ∧
      (getNextFloat32 { (writeFloat32 s [b]).1 with cursor := s.cursor }).2 = .ok b) ∧
    (∀ (s : ArrayBufferStream) (b : Nat), b < 18446744073709551616 →
      s.cursor + 8 ≤ s.size →
      (writeFloat64 s [b]).2 = none ∧
      (getNextFloat64 { (writeFloat64 s [b]).1 with cursor := s.cursor }).2 = .ok b) ∧
    (∀ (s : ArrayBufferStream) (q : ℚ), 0 ≤ q → q ≤ 1 →
      s.cursor + 1 ≤ s.size →
      (writeUNorm8 s [q]).2 = none ∧
      ∃ r : ℚ,
        (getNextUNorm8 { (writeUNorm8 s [q]).1 with cursor := s.cursor }).2 = .ok r ∧
        |q - r| ≤ 1 / 255) ∧
    (∀ (s : ArrayBufferStream) (q : ℚ), 0 ≤ q → q ≤ 1 →
      s.cursor + 2 ≤ s.size →
      (writeUNorm16 s [q]).2 = none ∧
      ∃ r : ℚ,
        (getNextUNorm16 { (writeUNorm16 s [q]).1 with cursor := s.cursor }).2 = .ok r ∧
        |q - r| ≤ 1 / 65535) := by
  refine ⟨?_, ?_, ?_, ?_, ?_, ?_, ?_, ?_, ?_, ?_⟩
  · intro s v h0 h1 hc
    unfold writeUint8 getNextUint8
    rw [runSeq_singleton]
    have hrt := write1_read1_roundtrip id (fun b => (b : Int)) s v (by omega)
    exact ⟨hrt.1, by rw [hrt.2]; exact congrArg Except.ok (emod256_toNat_cast v h0 h1)⟩
  · intro s v h0 h1 hc
    unfold writeInt8 getNextInt8
    rw [runSeq_singleton]
    have hrt := write1_read1_roundtrip id (toSigned 8) s v (by omega)
    exact ⟨hrt.1, by rw [hrt.2]; exact congrArg Except.ok (toSigned_eight v h0 h1)⟩
  · intro s v h0 h1 hc
    unfold writeUint16 getNextUint16
    rw [runSeq_singleton]
    have hrt := writeW_readW_roundtrip 2 (toUintM 65536) (fun n => (n : Int)) s v hc
    refine ⟨hrt.1, ?_⟩
    rw [hrt.2, show (2 : ℕ) ^ (8 * 2) = 65536 from by norm_num]
    exact congrArg Except.ok (toUintM_mod_cast 65536 v h0 (by omega))
  · intro s v h0 h1 hc
    unfold writeInt16 getNextInt16
    rw [runSeq_singleton]
    have hrt := writeW_readW_roundtrip 2 (toUintM 65536) (toSigned 16) s v hc
    refine ⟨hrt.1, ?_⟩
    rw [hrt.2, show (2 : ℕ) ^ (8 * 2) = 65536 from by norm_num,
      toUintM_mod_self 65536 v (by norm_num)]
    exact congrArg Except.ok (toSigned_sixteen v h0 h1)
  · intro s v h0 h1 hc
    unfold writeUint32 getNextUint32
    rw [runSeq_singleton]
    have hrt := writeW_readW_roundtrip 4 (toUintM 4294967296) (fun n => (n : Int)) s v hc
    refine ⟨hrt.1, ?_⟩
    rw [hrt.2, show (2 : ℕ) ^ (8 * 4) = 4294967296 from by norm_num]
    exact congrArg Except.ok (toUintM_mod_cast 4294967296 v h0 (by omega))
  · intro s v h0 h1 hc
    unfold writeInt32 getNextInt32
    rw [runSeq_singleton]
    have hrt := writeW_readW_roundtrip 4 (toUintM 4294967296) (toSigned 32) s v hc
    refine ⟨hrt.1, ?_⟩
    rw [hrt.2, show (2 : ℕ) ^ (8 * 4) = 4294967296 from by norm_num,
      toUintM_mod_self 4294967296 v (by norm_num)]
    exact congrArg Except.ok (toSigned_thirtytwo v h0 h1)
  · intro s b hb hc
    unfold writeFloat32 getNextFloat32
    rw [runSeq_singleton]
    have hrt := writeW_readW_roundtrip 4 (fun x => x % 4294967296) (fun n => n) s b hc
    refine ⟨hrt.1, ?_⟩
    rw [hrt.2, show (2 : ℕ) ^ (8 * 4) = 4294967296 from by norm_num]
    have hmod : (b % 4294967296) % 4294967296 = b := by omega
    exact congrArg Except.ok hmod
  · intro s b hb hc
    unfold writeFloat64 getNextFloat64
    rw [runSeq_singleton]
    have hrt := writeW_readW_roundtrip 8 (fun x => x % 18446744073709551616)
      (fun n => n) s b hc
    refine ⟨hrt.1, ?_⟩
    rw [hrt.2, show (2 : ℕ) ^ (8 * 8) = 18446744073709551616 from by norm_num]
    have hmod : (b % 18446744073709551616) % 18446744073709551616 = b := by omega
    exact congrArg Except.ok hmod
  · intro s q h0 h1 hc
    unfold writeUNorm8 getNextUNorm8
    rw [runSeq_singleton]
    have hrt := write1_read1_roundtrip (fun x : ℚ => Int.floor (x * 255))
      (fun b => (b : ℚ) * BYTE_TO_NORM) s q (by omega)
    refine ⟨hrt.1, ?_⟩
    refine ⟨(((Int.floor (q * 255)).emod 256).toNat : ℚ) * BYTE_TO_NORM, hrt.2, ?_⟩
    have hb := floor255_le q h0 h1
    have hemod : (Int.floor (q * 255)).emod 256 = Int.floor (q * 255) := by
      rw [show (Int.floor (q * 255)).emod 256 = Int.floor (q * 255) % 256 from rfl]
      omega
    rw [hemod, floorToNat_cast_rat _ hb.1,
      show BYTE_TO_NORM = 1 / (255 : ℚ) from rfl]
    exact unorm_tolerance q 255 (by norm_num)
  · intro s q h0 h1 hc
    unfold writeUNorm16 getNextUNorm16
    rw [runSeq_singleton]
    have hrt := writeW_readW_roundtrip 2
      (fun x : ℚ => toUintM 65536 (Int.floor (x * 65535)))
      (fun n => (n : ℚ) * SHORT_TO_NORM) s q hc
    refine ⟨hrt.1, ?_⟩
    refine ⟨((toUintM 65536 (Int.floor (q * 65535)) % 2 ^ (8 * 2) : ℕ) : ℚ)
      * SHORT_TO_NORM, hrt.2, ?_⟩
    have hb := floor65535_le q h0 h1
    rw [show (2 : ℕ) ^ (8 * 2) = 65536 from by norm_num,
      toUintM_mod_self 65536 _ (by norm_num)]
    have hemod : toUintM 65536 (Int.floor (q * 65535))
        = (Int.floor (q * 65535)).toNat := by
      unfold toUintM
      congr 1
      have hshape : (Int.floor (q * 65535)).emod ((65536 : ℕ) : ℤ)
          = Int.floor (q * 65535) % (65536 : ℤ) := rfl
      rw [hshape]
      omega
    rw [hemod, floorToNat_cast_rat _ hb.1,
      show SHORT_TO_NORM = 1 / (65535 : ℚ) from rfl]
    exact unorm_tolerance q 65535 (by norm_num)

/-- Witness for C4: concrete round trips on the little- and big-endian
eight-byte streams for a 16-bit value, a float bit pattern, and a normalized
value. -/
theorem c4_write_read_roundtrip_witness :
    (getNextUint16 { (writeUint16 exLE [513]).1 with cursor := exLE.cursor }).2
      = .ok 513 ∧
    (getNextUint16 { (writeUint16 exBE [513]).1 with cursor := exBE.cursor }).2
      = .ok 513 ∧
    (getNextFloat64 { (writeFloat64 exLE [1072693248]).1 with cursor := exLE.cursor }).2
      = .ok 1072693248 ∧
    ∃ r : ℚ,
      (getNextUNorm8 { (writeUNorm8 exLE [1 / 2]).1 with cursor := exLE.cursor }).2
        = .ok r ∧ |(1 : ℚ) / 2 - r| ≤ 1 / 255 :=
  ⟨(c4_write_read_roundtrip.2.2.1 exLE 513 (by norm_num) (by norm_num) (by decide)).2,
   (c4_write_read_roundtrip.2.2.1 exBE 513 (by norm_num) (by norm_num) (by decide)).2,
   (c4_write_read_roundtrip.2.2.2.2.2.2.2.1 exLE 1072693248 (by norm_num) (by decide)).2,
   (c4_write_read_roundtrip.2.2.2.2.2.2.2.2.1 exLE (1 / 2) (by norm_num) (by norm_num)
     (by decide)).2⟩

theorem clampI_bounds (lo hi v : Int) (h : lo ≤ hi) :
    lo ≤ clampI lo hi v ∧ clampI lo hi v ≤ hi := by
  unfold clampI
  omega

theorem clampI_of_gt (lo hi v : Int) (h : hi < v) : clampI lo hi v = hi := by
  unfold clampI
  omega

theorem clampI_of_lt (lo hi v : Int) (h1 : v < lo) (h2 : lo ≤ hi) :
    clampI lo hi v = lo := by
  unfold clampI
  omega

theorem clampI_of_mem (lo hi v : Int) (h1 : lo ≤ v) (h2 : v ≤ hi) :
    clampI lo hi v = v := by
  unfold clampI
  omega

theorem clampQ_bounds (v : ℚ) : 0 ≤ clampQ v ∧ clampQ v ≤ 1 := by
  unfold clampQ
  constructor
  · exact le_min (by norm_num) (le_max_left 0 v)
  · exact min_le_left 1 _

theorem clampQ_of_gt (v : ℚ) (h : 1 < v) : clampQ v = 1 := by
  unfold clampQ
  rw [max_eq_right (by linarith), min_eq_left (by linarith)]

theorem clampQ_of_lt (v : ℚ) (h : v < 0) : clampQ v = 0 := by
  unfold clampQ
  rw [max_eq_left h.le, min_eq_right (by norm_num)]

theorem clampQ_of_mem (v : ℚ) (h0 : 0 ≤ v) (h1 : v ≤ 1) : clampQ v = v := by
  unfold clampQ
  rw [max_eq_right h0, min_eq_right h1]

/-- C2: the clamped write variants (modelled from the spec, being absent from
src/index.js) saturate the input to the kind's representable range before
encoding — reading back yields exactly the saturated value, which is the max
above the range, the min below it, and the input itself inside it (UNorm
kinds clamp to `[0, 1]` before the scale-and-floor step and read back 1, 0,
or the value within tolerance) — while bounds checking and cursor advance are
identical to the unclamped writes. -/
theorem c2_clamped_write_saturates :
    (∀ (s : ArrayBufferStream) (v : Int), s.cursor + 1 ≤ s.size →
      (writeUint8Clamped s [v]).2 = none ∧
      (getNextUint8 { (writeUint8Clamped s [v]).1 with cursor := s.cursor }).2
        = .ok (clampI 0 255 v) ∧
      (255 < v → clampI 0 255 v = 255) ∧ (v < 0 → clampI 0 255 v = 0) ∧
      (0 ≤ v → v ≤ 255 → clampI 0 255 v = v)) ∧
    (∀ (s : ArrayBufferStream) (v : Int), s.cursor + 1 ≤ s.size →
      (writeInt8Clamped s [v]).2 = none ∧
      (getNextInt8 { (writeInt8Clamped s [v]).1 with cursor := s.cursor }).2
        = .ok (clampI (-128) 127 v) ∧
      (127 < v → clampI (-128) 127 v = 127) ∧ (v < -128 → clampI (-128) 127 v = -128) ∧
      (-128 ≤ v → v ≤ 127 → clampI (-128) 127 v = v)) ∧
    (∀ (s : ArrayBufferStream) (v : Int), s.cursor + 2 ≤ s.size →
      (writeUint16Clamped s [v]).2 = none ∧
      (getNextUint16 { (writeUint16Clamped s [v]).1 with cursor := s.cursor }).2
        = .ok (clampI 0 65535 v) ∧
      (65535 < v → clampI 0 65535 v = 65535) ∧ (v < 0 → clampI 0 65535 v = 0) ∧
      (0 ≤ v → v ≤ 65535 → clampI 0 65535 v = v)) ∧
    (∀ (s : ArrayBufferStream) (v : Int), s.cursor + 2 ≤ s.size →
      (writeInt16Clamped s [v]).2 = none ∧
      (getNextInt16 { (writeInt16Clamped s [v]).1 with cursor := s.cursor }).2
        = .ok (clampI (-32768) 32767 v) ∧
      (32767 < v → clampI (-32768) 32767 v = 32767) ∧
      (v < -32768 → clampI (-32768) 32767 v = -32768) ∧
      (-32768 ≤ v → v ≤ 32767 → clampI (-32768) 32767 v = v)) ∧
    (∀ (s : ArrayBufferStream) (v : Int), s.cursor + 4 ≤ s.size →
      (writeUint32Clamped s [v]).2 = none ∧
      (getNextUint32 { (writeUint32Clamped s [v]).1 with cursor := s.cursor }).2
        = .ok (clampI 0 4294967295 v) ∧
      (4294967295 < v → clampI 0 4294967295 v = 4294967295) ∧
      (v < 0 → clampI 0 4294967295 v = 0) ∧
      (0 ≤ v → v ≤ 4294967295 → clampI 0 4294967295 v = v)) ∧
    (∀ (s : ArrayBufferStream) (v : Int), s.cursor + 4 ≤ s.size →
      (writeInt32Clamped s [v]).2 = none ∧
      (getNextInt32 { (writeInt32Clamped s [v]).1 with cursor := s.cursor }).2
        = .ok (clampI (-2147483648) 2147483647 v) ∧
      (2147483647 < v → clampI (-2147483648) 2147483647 v = 2147483647) ∧
      (v < -2147483648 → clampI (-2147483648) 2147483647 v = -2147483648) ∧
      (-2147483648 ≤ v → v ≤ 2147483647 → clampI (-2147483648) 2147483647 v = v)) ∧
    (∀ (s : ArrayBufferStream) (v : ℚ), s.cursor + 1 ≤ s.size →
      (writeUNorm8Clamped s [v]).2 = none ∧
      ∃ r : ℚ,
        (getNextUNorm8 { (writeUNorm8Clamped s [v]).1 with cursor := s.cursor }).2
          = .ok r ∧
        (1 < v → r = 1) ∧ (v < 0 → r = 0) ∧
        (0 ≤ v → v ≤ 1 → |v - r| ≤ 1 / 255)) ∧
    (∀ (s : ArrayBufferStream) (v : ℚ), s.cursor + 2 ≤ s.size →
      (writeUNorm16Clamped s [v]).2 = none ∧
      ∃ r : ℚ,
        (getNextUNorm16 { (writeUNorm16Clamped s [v]).1 with cursor := s.cursor }).2
          = .ok r ∧
        (1 < v → r = 1) ∧ (v < 0 → r = 0) ∧
        (0 ≤ v → v ≤ 1 → |v - r| ≤ 1 / 65535)) ∧
    (∀ (s : ArrayBufferStream) (vals : List Int),
      (writeUint8Clamped s vals).2 = (writeUint8 s vals).2 ∧
      (writeUint8Clamped s vals).1.cursor = (writeUint8 s vals).1.cursor) ∧
    (∀ (s : ArrayBufferStream) (vals : List Int),
      (writeInt8Clamped s vals).2 = (writeInt8 s vals).2 ∧
      (writeInt8Clamped s vals).1.cursor = (writeInt8 s vals).1.cursor) ∧
    (∀ (s : ArrayBufferStream) (vals : List Int),
      (writeUint16Clamped s vals).2 = (writeUint16 s vals).2 ∧
      (writeUint16Clamped s vals).1.cursor = (writeUint16 s vals).1.cursor) ∧
    (∀ (s : ArrayBufferStream) (vals : List Int),
      (writeInt16Clamped s vals).2 = (writeInt16 s vals).2 ∧
      (writeInt16Clamped s vals).1.cursor = (writeInt16 s vals).1.cursor) ∧
    (∀ (s : ArrayBufferStream) (vals : List Int),
      (writeUint32Clamped s vals).2 = (writeUint32 s vals).2 ∧
      (writeUint32Clamped s vals).1.cursor = (writeUint32 s vals).1.cursor) ∧
    (∀ (s : ArrayBufferStream) (vals : List Int),
      (writeInt32Clamped s vals).2 = (writeInt32 s vals).2 ∧
      (writeInt32Clamped s vals).1.cursor = (writeInt32 s vals).1.cursor) ∧
    (∀ (s : ArrayBufferStream) (vals : List ℚ),
      (writeUNorm8Clamped s vals).2 = (writeUNorm8 s vals).2 ∧
      (writeUNorm8Clamped s vals).1.cursor = (writeUNorm8 s vals).1.cursor) ∧
    (∀ (s : ArrayBufferStream) (vals : List ℚ),
      (writeUNorm16Clamped s vals).2 = (writeUNorm16 s vals).2 ∧
      (writeUNorm16Clamped s vals).1.cursor = (writeUNorm16 s vals).1.cursor) := by
  refine ⟨?_, ?_, ?_, ?_, ?_, ?_, ?_, ?_, ?_, ?_, ?_, ?_, ?_, ?_, ?_, ?_⟩
  · intro s v hc
    have hb := clampI_bounds 0 255 v (by norm_num)
    unfold writeUint8Clamped writeUint8 getNextUint8
    rw [show ([v].map (clampI 0 255)) = [clampI 0 255 v] from rfl, runSeq_singleton]
    have hrt := write1_read1_roundtrip id (fun b => (b : Int)) s (clampI 0 255 v)
      (by omega)
    exact ⟨hrt.1,
      by rw [hrt.2]; exact congrArg Except.ok (emod256_toNat_cast _ hb.1 hb.2),
      fun h => clampI_of_gt 0 255 v h, fun h => clampI_of_lt 0 255 v h (by norm_num),
      fun h1 h2 => clampI_of_mem 0 255 v h1 h2⟩
  · intro s v hc
    have hb := clampI_bounds (-128) 127 v (by norm_num)
    unfold writeInt8Clamped writeInt8 getNextInt8
    rw [show ([v].map (clampI (-128) 127)) = [clampI (-128) 127 v] from rfl,
      runSeq_singleton]
    have hrt := write1_read1_roundtrip id (toSigned 8) s (clampI (-128) 127 v)
      (by omega)
    exact ⟨hrt.1,
      by rw [hrt.2]; exact congrArg Except.ok (toSigned_eight _ hb.1 hb.2),
      fun h => clampI_of_gt _ _ v h, fun h => clampI_of_lt _ _ v h (by norm_num),
      fun h1 h2 => clampI_of_mem _ _ v h1 h2⟩
  · intro s v hc
    have hb := clampI_bounds 0 65535 v (by norm_num)
    unfold writeUint16Clamped writeUint16 getNextUint16
    rw [show ([v].map (clampI 0 65535)) = [clampI 0 65535 v] from rfl, runSeq_singleton]
    have hrt := writeW_readW_roundtrip 2 (toUintM 65536) (fun n => (n : Int)) s
      (clampI 0 65535 v) hc
    refine ⟨hrt.1, ?_, fun h => clampI_of_gt _ _ v h,
      fun h => clampI_of_lt _ _ v h (by norm_num),
      fun h1 h2 => clampI_of_mem _ _ v h1 h2⟩
    rw [hrt.2, show (2 : ℕ) ^ (8 * 2) = 65536 from by norm_num]
    exact congrArg Except.ok (toUintM_mod_cast 65536 _ hb.1 (by omega))
  · intro s v hc
    have hb := clampI_bounds (-32768) 32767 v (by norm_num)
    unfold writeInt16Clamped writeInt16 getNextInt16
    rw [show ([v].map (clampI (-32768) 32767)) = [clampI (-32768) 32767 v] from rfl,
      runSeq_singleton]
    have hrt := writeW_readW_roundtrip 2 (toUintM 65536) (toSigned 16) s
      (clampI (-32768) 32767 v) hc
    refine ⟨hrt.1, ?_, fun h => clampI_of_gt _ _ v h,
      fun h => clampI_of_lt _ _ v h (by norm_num),
      fun h1 h2 => clampI_of_mem _ _ v h1 h2⟩
    rw [hrt.2, show (2 : ℕ) ^ (8 * 2) = 65536 from by norm_num,
      toUintM_mod_self 65536 _ (by norm_num)]
    exact congrArg Except.ok (toSigned_sixteen _ hb.1 hb.2)
  · intro s v hc
    have hb := clampI_bounds 0 4294967295 v (by norm_num)
    unfold writeUint32Clamped writeUint32 getNextUint32
    rw [show ([v].map (clampI 0 4294967295)) = [clampI 0 4294967295 v] from rfl,
      runSeq_singleton]
    have hrt := writeW_readW_roundtrip 4 (toUintM 4294967296) (fun n => (n : Int)) s
      (clampI 0 4294967295 v) hc
    refine ⟨hrt.1, ?_, fun h => clampI_of_gt _ _ v h,
      fun h => clampI_of_lt _ _ v h (by norm_num),
      fun h1 h2 => clampI_of_mem _ _ v h1 h2⟩
    rw [hrt.2, show (2 : ℕ) ^ (8 * 4) = 4294967296 from by norm_num]
    exact congrArg Except.ok (toUintM_mod_cast 4294967296 _ hb.1 (by omega))
  · intro s v hc
    have hb := clampI_bounds (-2147483648) 2147483647 v (by norm_num)
    unfold writeInt32Clamped writeInt32 getNextInt32
    rw [show ([v].map (clampI (-2147483648) 2147483647))
      = [clampI (-2147483648) 2147483647 v] from rfl, runSeq_singleton]
    have hrt := writeW_readW_roundtrip 4 (toUintM 4294967296) (toSigned 32) s
      (clampI (-2147483648) 2147483647 v) hc
    refine ⟨hrt.1, ?_, fun h => clampI_of_gt _ _ v h,
      fun h => clampI_of_lt _ _ v h (by norm_num),
      fun h1 h2 => clampI_of_mem _ _ v h1 h2⟩
    rw [hrt.2, show (2 : ℕ) ^ (8 * 4) = 4294967296 from by norm_num,
      toUintM_mod_self 4294967296 _ (by norm_num)]
    exact congrArg Except.ok (toSigned_thirtytwo _ hb.1 hb.2)
  · intro s v hc
    have hb := clampQ_bounds v
    unfold writeUNorm8Clamped writeUNorm8 getNextUNorm8
    rw [show ([v].map clampQ) = [clampQ v] from rfl, runSeq_singleton]
    have hrt := write1_read1_roundtrip (fun x : ℚ => Int.floor (x * 255))
      (fun b => (b : ℚ) * BYTE_TO_NORM) s (clampQ v) (by omega)
    refine ⟨hrt.1, ?_⟩
    have hfb := floor255_le (clampQ v) hb.1 hb.2
    have hemod : (Int.floor (clampQ v * 255)).emod 256 = Int.floor (clampQ v * 255) := by
      rw [show (Int.floor (clampQ v * 255)).emod 256
        = Int.floor (clampQ v * 255) % 256 from rfl]
      omega
    refine ⟨(((Int.floor (clampQ v * 255)).emod 256).toNat : ℚ) * BYTE_TO_NORM,
      hrt.2, ?_, ?_, ?_⟩
    · intro h
      rw [clampQ_of_gt v h] at hemod ⊢
      rw [hemod, show Int.floor ((1 : ℚ) * 255) = 255 from by norm_num,
        show Int.toNat 255 = 255 from rfl]
      norm_num [BYTE_TO_NORM]
    · intro h
      rw [clampQ_of_lt v h] at hemod ⊢
      rw [hemod, show Int.floor ((0 : ℚ) * 255) = 0 from by norm_num]
      norm_num
    · intro h1 h2
      rw [clampQ_of_mem v h1 h2] at hemod ⊢
      rw [hemod, floorToNat_cast_rat _ (by
        rw [clampQ_of_mem v h1 h2] at hfb
        exact hfb.1),
        show BYTE_TO_NORM = 1 / (255 : ℚ) from rfl]
      exact unorm_tolerance v 255 (by norm_num)
  · intro s v hc
    have hb := clampQ_bounds v
    unfold writeUNorm16Clamped writeUNorm16 getNextUNorm16
    rw [show ([v].map clampQ) = [clampQ v] from rfl, runSeq_singleton]
    have hrt := writeW_readW_roundtrip 2
      (fun x : ℚ => toUintM 65536 (Int.floor (x * 65535)))
      (fun n => (n : ℚ) * SHORT_TO_NORM) s (clampQ v) hc
    refine ⟨hrt.1, ?_⟩
    have hfb := floor65535_le (clampQ v) hb.1 hb.2
    have hutn : toUintM 65536 (Int.floor (clampQ v * 65535))
        = (Int.floor (clampQ v * 65535)).toNat := by
      unfold toUintM
      congr 1
      have hshape : (Int.floor (clampQ v * 65535)).emod ((65536 : ℕ) : ℤ)
          = Int.floor (clampQ v * 65535) % (65536 : ℤ) := rfl
      rw [hshape]
      omega
    refine ⟨((toUintM 65536 (Int.floor (clampQ v * 65535)) % 2 ^ (8 * 2) : ℕ) : ℚ)
      * SHORT_TO_NORM, hrt.2, ?_, ?_, ?_⟩
    · intro h
      rw [clampQ_of_gt v h] at hutn ⊢
      rw [show (2 : ℕ) ^ (8 * 2) = 65536 from by norm_num,
        toUintM_mod_self 65536 _ (by norm_num), hutn,
        show Int.floor ((1 : ℚ) * 65535) = 65535 from by norm_num,
        show Int.toNat 65535 = 65535 from rfl]
      norm_num [SHORT_TO_NORM]
    · intro h
      rw [clampQ_of_lt v h] at hutn ⊢
      rw [show (2 : ℕ) ^ (8 * 2) = 65536 from by norm_num,
        toUintM_mod_self 65536 _ (by norm_num), hutn,
        show Int.floor ((0 : ℚ) * 65535) = 0 from by norm_num]
      norm_num
    · intro h1 h2
      rw [clampQ_of_mem v h1 h2] at hutn hfb ⊢
      rw [show (2 : ℕ) ^ (8 * 2) = 65536 from by norm_num,
        toUintM_mod_self 65536 _ (by norm_num), hutn,
        floorToNat_cast_rat _ hfb.1,
        show SHORT_TO_NORM = 1 / (65535 : ℚ) from rfl]
      exact unorm_tolerance v 65535 (by norm_num)
  · intro s vals
    unfold writeUint8Clamped writeUint8
    exact runSeq_write1_shape id id (vals.map (clampI 0 255)) vals s s (by simp) rfl rfl
  · intro s vals
    unfold writeInt8Clamped writeInt8
    exact runSeq_write1_shape id id (vals.map (clampI (-128) 127)) vals s s
      (by simp) rfl rfl
  · intro s vals
    unfold writeUint16Clamped writeUint16
    exact runSeq_writeW_shape 2 (toUintM 65536) (toUintM 65536)
      (vals.map (clampI 0 65535)) vals s s (by simp) rfl rfl
  · intro s vals
    unfold writeInt16Clamped writeInt16
    exact runSeq_writeW_shape 2 (toUintM 65536) (toUintM 65536)
      (vals.map (clampI (-32768) 32767)) vals s s (by simp) rfl rfl
  · intro s vals
    unfold writeUint32Clamped writeUint32
    exact runSeq_writeW_shape 4 (toUintM 4294967296) (toUintM 4294967296)
      (vals.map (clampI 0 4294967295)) vals s s (by simp) rfl rfl
  · intro s vals
    unfold writeInt32Clamped writeInt32
    exact runSeq_writeW_shape 4 (toUintM 4294967296) (toUintM 4294967296)
      (vals.map (clampI (-2147483648) 2147483647)) vals s s (by simp) rfl rfl
  · intro s vals
    unfold writeUNorm8Clamped writeUNorm8
    exact runSeq_write1_shape (fun x : ℚ => Int.floor (x * 255))
      (fun x : ℚ => Int.floor (x * 255)) (vals.map clampQ) vals s s (by simp) rfl rfl
  · intro s vals
    unfold writeUNorm16Clamped writeUNorm16
    exact runSeq_writeW_shape 2 (fun x : ℚ => toUintM 65536 (Int.floor (x * 65535)))
      (fun x : ℚ => toUintM 65536 (Int.floor (x * 65535))) (vals.map clampQ) vals s s
      (by simp) rfl rfl

/-- Witness for C2 at the test suite's own values: `writeUint8Clamped` of 4124
reads back 255 and of -141 reads back 0, and in-range 15 passes through, on
the concrete eight-byte stream. -/
theorem c2_clamped_write_saturates_witness :
    ((getNextUint8 { (writeUint8Clamped exLE [4124]).1 with cursor := exLE.cursor }).2
      = .ok (clampI 0 255 4124) ∧ clampI 0 255 (4124 : Int) = 255) ∧
    ((getNextUint8 { (writeUint8Clamped exLE [-141]).1 with cursor := exLE.cursor }).2
      = .ok (clampI 0 255 (-141)) ∧ clampI 0 255 (-141 : Int) = 0) ∧
    ((getNextUint8 { (writeUint8Clamped exLE [15]).1 with cursor := exLE.cursor }).2
      = .ok (clampI 0 255 15) ∧ clampI 0 255 (15 : Int) = 15) := by
  have h1 := c2_clamped_write_saturates.1 exLE 4124 (by decide)
  have h2 := c2_clamped_write_saturates.1 exLE (-141) (by decide)
  have h3 := c2_clamped_write_saturates.1 exLE 15 (by decide)
  exact ⟨⟨h1.2.1, h1.2.2.1 (by norm_num)⟩,
    ⟨h2.2.1, h2.2.2.2.1 (by norm_num)⟩,
    ⟨h3.2.1, h3.2.2.2.2 (by norm_num) (by norm_num)⟩⟩

/-- C8: an in-bounds batch read of `n` elements writes the i-th decoded value
into `dest[offset + i]` for `i` in `[0, n)` in order, leaves every element of
`dest` outside `[offset, offset + n)` untouched (in particular `dest[0]` when
`offset = 1`), keeps the container's length, and — when no destination is
supplied — allocates a fresh zero-filled container of length `n`; the generic
single-byte and `w`-byte loops cover every kind, and `getNextUint8Array` and
`getNextFloat32Array` are the cited instances. -/
theorem c8_batch_read_placement :
    (∀ (α : Type) (dec : Nat → α) (n : Nat) (s : ArrayBufferStream)
        (dest : List α) (j : Nat),
      s.cursor + n ≤ s.size → j + n ≤ dest.length →
      (readArr1 dec s n dest j).2.1.length = dest.length ∧
      (∀ k : Nat, j ≤ k → k < j + n →
        (readArr1 dec s n dest j).2.1[k]?
          = some (dec ((s.data[s.cursor + (k - j)]?).getD 0))) ∧
      (∀ k : Nat, k < j ∨ j + n ≤ k →
        (readArr1 dec s n dest j).2.1[k]? = dest[k]?)) ∧
    (∀ (w : Nat) (α : Type) (dec : Nat → α) (n : Nat) (s : ArrayBufferStream)
        (dest : List α) (j : Nat),
      s.cursor + n * w ≤ s.size → j + n ≤ dest.length →
      (readArrW w dec s n dest j).2.1.length = dest.length ∧
      (∀ k : Nat, j ≤ k → k < j + n →
        (readArrW w dec s n dest j).2.1[k]?
          = some (dec (natFromBytesLE
              (if s.littleEndian then getBytes s.data (s.cursor + (k - j) * w) w
               else (getBytes s.data (s.cursor + (k - j) * w) w).reverse)))) ∧
      (∀ k : Nat, k < j ∨ j + n ≤ k →
        (readArrW w dec s n dest j).2.1[k]? = dest[k]?)) ∧
    (∀ (s : ArrayBufferStream) (n : Nat) (dest : List Int) (off : Nat),
      s.cursor + n ≤ s.size → off + n ≤ dest.length →
      (∀ k : Nat, k < off →
        (getNextUint8Array s n (some dest) off).2.1[k]? = dest[k]?) ∧
      (∀ k : Nat, off ≤ k → k < off + n →
        (getNextUint8Array s n (some dest) off).2.1[k]?
          = some ((((s.data[s.cursor + (k - off)]?).getD 0 : ℕ)) : Int))) ∧
    (∀ (s : ArrayBufferStream) (n : Nat), s.cursor + n ≤ s.size →
      (getNextUint8Array s n none 0).2.1.length = n) ∧
    (∀ (s : ArrayBufferStream) (n : Nat), s.cursor + n * 4 ≤ s.size →
      (getNextFloat32Array s n none 0).2.1.length = n) := by
  refine ⟨?_, ?_, ?_, ?_, ?_⟩
  · intro α dec n s dest j hs hd
    have hspec := readArr1_spec dec n s dest j hs hd
    exact ⟨hspec.2.2.1, hspec.2.2.2.1, hspec.2.2.2.2⟩
  · intro w α dec n s dest j hs hd
    have hspec := readArrW_spec w dec n s dest j hs hd
    exact ⟨hspec.2.2.1, hspec.2.2.2.1, hspec.2.2.2.2⟩
  · intro s n dest off hs hd
    unfold getNextUint8Array
    have hspec := readArr1_spec (fun b => (b : Int)) n s dest off hs hd
    exact ⟨fun k hk => hspec.2.2.2.2 k (Or.inl hk),
      fun k hk1 hk2 => hspec.2.2.2.1 k hk1 hk2⟩
  · intro s n hs
    unfold getNextUint8Array
    simp only [Option.getD_none]
    have hspec := readArr1_spec (fun b => (b : Int)) n s (List.replicate n 0) 0 hs
      (by simp)
    rw [hspec.2.2.1]
    simp
  · intro s n hs
    unfold getNextFloat32Array
    simp only [Option.getD_none]
    have hspec := readArrW_spec 4 (fun b => b) n s (List.replicate n 0) 0 hs
      (by simp)
    rw [hspec.2.2.1]
    simp

/-- Witness for C8, mirroring the test: reading three bytes of
`[15, 24, 52, 0]` into a five-element destination at offset 1 leaves index 0
untouched and fills indices 1..3 in order, and the no-destination form
allocates a length-3 container. -/
theorem c8_batch_read_placement_witness :
    (getNextUint8Array ⟨[15, 24, 52, 0], 0, false⟩ 3 (some [9, 9, 9, 9, 9]) 1).2.1[0]?
      = some 9 ∧
    (getNextUint8Array ⟨[15, 24, 52, 0], 0, false⟩ 3 (some [9, 9, 9, 9, 9]) 1).2.1[1]?
      = some 15 ∧
    (getNextUint8Array ⟨[15, 24, 52, 0], 0, false⟩ 3 (some [9, 9, 9, 9, 9]) 1).2.1[3]?
      = some 52 ∧
    (getNextUint8Array ⟨[15, 24, 52, 0], 0, false⟩ 3 none 0).2.1.length = 3 := by
  have hspec := c8_batch_read_placement.2.2.1 ⟨[15, 24, 52, 0], 0, false⟩ 3
    [9, 9, 9, 9, 9] 1 (by decide) (by decide)
  refine ⟨hspec.1 0 (by decide), ?_, ?_, ?_⟩
  · have := hspec.2 1 (by decide) (by decide)
    rw [this]
    decide
  · have := hspec.2 3 (by decide) (by decide)
    rw [this]
    decide
  · exact c8_batch_read_placement.2.2.2.1 ⟨[15, 24, 52, 0], 0, false⟩ 3 (by decide)

end ABStream
